import Mathlib

/-!
# file-rotatelogs: a verification development

A shallow embedding of the rotating log writer (`rotatelogs.go`,
`interface.go`, `internal/fileutil/fileutil.go`) together with the properties
proved about it.

Conventions of the embedding

* Durations and time readings are integers counting nanoseconds.
* A `Time` is a wall-clock reading together with the `Location` it is read in.
* The operating system is an explicit state `Sys` threaded through every
  operation; goroutines started by the code (`go h.Handle(..)`, the detached
  unlink loop) are recorded in `Sys` as delivered events and scheduled removals.
* Library collaborators that the repository only calls (the strftime
  formatter, `filepath.Glob`, `filepath.Dir`, `filepath.Rel`, gzip) are the
  fields of a record `Lib`; general theorems hold for every `Lib`.
* `rl.clock.Now()` is read several times during one call; the embedding takes
  one reading `now` per call.
-/

namespace Rotatelogs

/-! ## Time -/

/-- Nanoseconds in one second (`time.Second`). -/
def nsSecond : Int := 1000000000

/-- Nanoseconds in one hour (`time.Hour`). -/
def nsHour : Int := 3600 * nsSecond

/-- Nanoseconds in one civil day. -/
def nsDay : Int := 24 * nsHour

/-- A `*time.Location`: the distinguished `time.UTC`, or any other location,
given by its name and the offset east of UTC (in nanoseconds) in effect. -/
inductive Location where
  | utc
  | zone (name : String) (offset : Int)
deriving DecidableEq, Repr

/-- Offset east of UTC, in nanoseconds. -/
def Location.offset : Location → Int
  | .utc => 0
  | .zone _ o => o

/-- A `time.Time`: `wall` is the wall-clock reading in `loc`, counted in
nanoseconds since 0001-01-01 00:00:00 on that clock. The calendar fields
`Year() .. Nanosecond()` are a function of `wall` alone. -/
structure Time where
  wall : Int
  loc : Location
deriving DecidableEq, Repr

/-- The absolute instant: nanoseconds since the zero time 0001-01-01 00:00:00 UTC. -/
def Time.abs (t : Time) : Int := t.wall - t.loc.offset

/-- `t.Location()`. -/
def Time.Location (t : Time) : Location := t.loc

/-- `time.Date(y, mo, d, h, mi, s, ns, loc)` applied to the calendar fields of
the wall-clock reading `wall`: the time in `loc` showing that reading. -/
def Date (wall : Int) (loc : Location) : Time := { wall := wall, loc := loc }

/-- `t.Truncate(d)`: round the absolute instant down to a multiple of `d`
since the zero time; `d <= 0` returns `t` unchanged. -/
def Time.Truncate (t : Time) (d : Int) : Time :=
  if d ≤ 0 then t else { t with wall := t.wall - t.abs % d }

/-- `t.Add(d)`. -/
def Time.Add (t : Time) (d : Int) : Time := { t with wall := t.wall + d }

/-- `t.After(u)` on absolute instants. -/
def Time.After (t u : Time) : Bool := decide (u.abs < t.abs)

/-! ## Calendar and the strftime subset used for concrete runs -/

/-- Proleptic Gregorian date `(year, month, day)` of the day numbered `z`,
day 0 being 0001-01-01. -/
def civilFromDays (z : Int) : Int × Int × Int :=
  let z := z + 306
  let era := z / 146097
  let doe := z - era * 146097
  let yoe := (doe - doe / 1460 + doe / 36524 - doe / 146096) / 365
  let y := yoe + era * 400
  let doy := doe - (365 * yoe + yoe / 4 - yoe / 100)
  let mp := (5 * doy + 2) / 153
  let d := doy - (153 * mp + 2) / 5 + 1
  let m := if mp < 10 then mp + 3 else mp - 9
  (if m ≤ 2 then y + 1 else y, m, d)

/-- Day number (0 = 0001-01-01) of the proleptic Gregorian date `y-m-d`. -/
def daysFromCivil (y m d : Int) : Int :=
  let y := if m ≤ 2 then y - 1 else y
  let era := y / 400
  let yoe := y - era * 400
  let doy := (153 * (if 2 < m then m - 3 else m + 9) + 2) / 5 + d - 1
  let doe := yoe * 365 + yoe / 4 - yoe / 100 + doy
  era * 146097 + doe - 306

/-- `t.Year()`. -/
def Time.Year (t : Time) : Int := (civilFromDays (t.wall / nsDay)).1

/-- `t.Month()`. -/
def Time.Month (t : Time) : Int := (civilFromDays (t.wall / nsDay)).2.1

/-- `t.Day()`. -/
def Time.Day (t : Time) : Int := (civilFromDays (t.wall / nsDay)).2.2

/-- `t.Hour()`. -/
def Time.Hour (t : Time) : Int := t.wall % nsDay / nsHour

/-- `t.Minute()`. -/
def Time.Minute (t : Time) : Int := t.wall % nsHour / (60 * nsSecond)

/-- `t.Second()`. -/
def Time.Second (t : Time) : Int := t.wall % (60 * nsSecond) / nsSecond

/-- One decimal digit as a character. -/
def digitChar (n : Nat) : Char := Char.ofNat (48 + n % 10)

/-- Little-endian decimal digits of `n`, at most `fuel` of them. -/
def digitsRev : Nat → Nat → List Nat
  | 0, _ => []
  | fuel + 1, n => if n < 10 then [n] else (n % 10) :: digitsRev fuel (n / 10)

/-- The characters of `fmt.Sprintf("%d", n)` for a non-negative `n`. -/
def itoa (n : Nat) : List Char := ((digitsRev (n + 1) n).reverse).map digitChar

/-- Decimal rendering zero-padded on the left to width `w`. -/
def padNum (w : Nat) (n : Int) : List Char :=
  let ds := itoa n.toNat
  List.replicate (w - ds.length) '0' ++ ds

/-- The numeric zone offset `+hhmm` / `-hhmm` of a time. -/
def zoneOffset (t : Time) : List Char :=
  (if t.loc.offset < 0 then '-' else '+') ::
    (padNum 2 (t.loc.offset.natAbs / nsHour) ++
     padNum 2 (t.loc.offset.natAbs % nsHour / (60 * nsSecond)))

/-- What one directive character expands to; a character outside the subset
`Y m d H M S z %` is kept verbatim. -/
def directive (t : Time) (c : Char) : List Char :=
  if c = 'Y' then padNum 4 t.Year
  else if c = 'm' then padNum 2 t.Month
  else if c = 'd' then padNum 2 t.Day
  else if c = 'H' then padNum 2 t.Hour
  else if c = 'M' then padNum 2 t.Minute
  else if c = 'S' then padNum 2 t.Second
  else if c = 'z' then zoneOffset t
  else if c = '%' then ['%']
  else ['%', c]

/-- Expansion of a pattern: `%c` goes through `directive`, every other
character is copied. -/
def expand (t : Time) : List Char → List Char
  | [] => []
  | c :: rest =>
    if c = '%' then
      match rest with
      | [] => ['%']
      | d :: rest2 => directive t d ++ expand t rest2
    else c :: expand t rest

/-- Whether every directive of the pattern is in the subset `directive` knows. -/
def knownPattern : List Char → Bool
  | [] => true
  | c :: rest =>
    if c = '%' then
      match rest with
      | [] => false
      | d :: rest2 => "YmdHMSz%".data.contains d && knownPattern rest2
    else knownPattern rest

/-! ## Library collaborators and the operating system -/

/-- The library functions the repository calls without implementing them. -/
structure Lib where
  /-- Whether `strftime.New(p)` succeeds. -/
  validPattern : String → Bool
  /-- The result of `(*Strftime).FormatString` for the compiled pattern. -/
  format : String → Time → String
  /-- The result of `filepath.Glob(pattern)` given every existing path. -/
  glob : String → List String → Except String (List String)
  /-- The function `filepath.Dir`. -/
  dir : String → String
  /-- The function `filepath.Rel`. -/
  rel : String → String → Except String String
  /-- The path a symbolic link located at the first argument refers to when its
  target text is the second argument. -/
  resolve : String → String → String
  /-- The gzip encoder: bytes in, bytes out. -/
  gzip : List Nat → List Nat
  /-- The text `time.Now().Format("2006-01-02_15-04")` for an OS clock reading. -/
  stamp : Int → String

/-- A directory entry: a regular file with its bytes and modification time, or
a symbolic link with its target text. Directories are not tracked. -/
inductive Node where
  | file (content : List Nat) (modTime : Int)
  | symlink (target : String) (modTime : Int)
deriving DecidableEq, Repr

/-- What `os.Stat` / `os.Lstat` report (`Size()`, `ModTime()`, and whether
`Mode()&os.ModeSymlink` is set). -/
structure FileInfo where
  size : Int
  modTime : Int
  isSymlink : Bool
deriving DecidableEq, Repr

/-- An open `*os.File`: a descriptor number and the path it was opened at. -/
structure Handle where
  fd : Nat
  path : String
deriving DecidableEq, Repr

/-- The value handed to the registered handler after a rotation. -/
structure FileRotatedEvent where
  prev : String
  current : String
deriving DecidableEq, Repr

/-- The state of the operating system as far as the writer observes it. -/
structure Sys where
  /-- Existing paths, first binding wins. -/
  nodes : List (String × Node)
  /-- Paths at which the OS refuses to create, open or rename. -/
  denied : List String
  /-- The next unused descriptor number. -/
  nextFd : Nat
  /-- The OS clock (an absolute instant), used for modification times. -/
  clock : Int
  /-- Events handed to `go h.Handle(..)`, oldest first. -/
  events : List FileRotatedEvent
  /-- Paths the detached unlink goroutines were asked to remove, oldest first. -/
  unlinkQueue : List String
  /-- Lines printed on standard error. -/
  stderr : List String
deriving DecidableEq, Repr

/-- All existing paths. -/
def Sys.paths (sys : Sys) : List String := sys.nodes.map Prod.fst

/-- The entry bound to a path, if any; the empty path names nothing. -/
def Sys.find (sys : Sys) (p : String) : Option Node :=
  if p = "" then none
  else
    match sys.nodes.find? (fun e => decide (e.1 = p)) with
    | some e => some e.2
    | none => none

/-- Whether the OS refuses to create, open or rename at a path: the empty
path, or one listed in `denied`. -/
def Sys.denies (sys : Sys) (p : String) : Bool := decide (p = "") || decide (p ∈ sys.denied)

/-- Bind `p` to `n`, replacing an existing binding in place. -/
def Sys.put (sys : Sys) (p : String) (n : Node) : Sys :=
  if sys.find p = none then { sys with nodes := sys.nodes ++ [(p, n)] }
  else { sys with nodes := sys.nodes.map (fun e => if e.1 = p then (p, n) else e) }

/-- Remove every binding of `p`. -/
def Sys.erase (sys : Sys) (p : String) : Sys :=
  { sys with nodes := sys.nodes.filter (fun e => decide (e.1 ≠ p)) }

/-- The function `os.Lstat`: the entry itself, links not followed. -/
def Lstat (sys : Sys) (p : String) : Option FileInfo :=
  match sys.find p with
  | none => none
  | some (.file c m) => some { size := c.length, modTime := m, isSymlink := false }
  | some (.symlink tgt m) => some { size := (tgt.length : Int), modTime := m, isSymlink := true }

/-- Follow symbolic links from `p`, at most `fuel` entries deep; the result is
the path of the regular file reached with its bytes and modification time. -/
def follow (L : Lib) (sys : Sys) : Nat → String → Option (String × List Nat × Int)
  | 0, _ => none
  | fuel + 1, p =>
    match sys.find p with
    | none => none
    | some (.file c m) => some (p, c, m)
    | some (.symlink tgt _) => follow L sys fuel (L.resolve p tgt)

/-- The function `os.Stat`: links are followed (to depth 40, the OS limit). -/
def Stat (L : Lib) (sys : Sys) (p : String) : Option FileInfo :=
  match follow L sys 40 p with
  | none => none
  | some (_, c, m) => some { size := c.length, modTime := m, isSymlink := false }

/-- The function `os.ReadFile`. -/
def ReadFile (L : Lib) (sys : Sys) (p : String) : Option (List Nat) :=
  match follow L sys 40 p with
  | none => none
  | some (_, c, _) => some c

/-- The function `os.MkdirAll`: refused at a denied path or where a regular
file sits; otherwise it succeeds and changes nothing that is tracked. -/
def MkdirAll (sys : Sys) (p : String) : Except String Unit :=
  if sys.denies p then .error ("mkdir " ++ p ++ ": permission denied")
  else match sys.find p with
    | some (.file _ _) => .error ("mkdir " ++ p ++ ": not a directory")
    | _ => .ok ()

/-- The call `os.OpenFile(p, O_CREATE|O_APPEND|O_WRONLY, 0644)`. -/
def OpenAppend (sys : Sys) (p : String) : Except String (Handle × Sys) :=
  if sys.denies p then .error ("open " ++ p ++ ": permission denied")
  else
    let sys1 := if sys.find p = none then sys.put p (.file [] sys.clock) else sys
    .ok ({ fd := sys.nextFd, path := p }, { sys1 with nextFd := sys.nextFd + 1 })

/-- The call `os.OpenFile(p, O_CREATE|O_EXCL, 0644)`. -/
def OpenExcl (sys : Sys) (p : String) : Except String (Handle × Sys) :=
  if sys.find p ≠ none then .error ("open " ++ p ++ ": file exists")
  else if sys.denies p then .error ("open " ++ p ++ ": permission denied")
  else .ok ({ fd := sys.nextFd, path := p },
            { sys.put p (.file [] sys.clock) with nextFd := sys.nextFd + 1 })

/-- The function `os.Create`: create or truncate. -/
def Create (sys : Sys) (p : String) : Except String (Handle × Sys) :=
  if sys.denies p then .error ("open " ++ p ++ ": permission denied")
  else .ok ({ fd := sys.nextFd, path := p },
            { sys.put p (.file [] sys.clock) with nextFd := sys.nextFd + 1 })

/-- The function `os.Remove`. -/
def Remove (sys : Sys) (p : String) : Except String Sys :=
  if sys.find p = none then .error ("remove " ++ p ++ ": no such file or directory")
  else .ok (sys.erase p)

/-- The function `os.Symlink(dest, p)`. -/
def Symlink (sys : Sys) (dest p : String) : Except String Sys :=
  if sys.find p ≠ none then .error ("symlink " ++ dest ++ " " ++ p ++ ": file exists")
  else if sys.denies p then .error ("symlink " ++ dest ++ " " ++ p ++ ": permission denied")
  else .ok (sys.put p (.symlink dest sys.clock))

/-- The function `os.Rename(a, b)`: the entry at `a` replaces whatever is at `b`. -/
def Rename (sys : Sys) (a b : String) : Except String Sys :=
  match sys.find a with
  | none => .error ("rename " ++ a ++ " " ++ b ++ ": no such file or directory")
  | some n =>
    if sys.denies b then .error ("rename " ++ a ++ " " ++ b ++ ": permission denied")
    else .ok ((sys.erase a).put b n)

/-- The method `(*os.File).Write`: a nil file gives `os.ErrInvalid`; otherwise
the bytes are appended to the regular file at the handle's path (a file that
was unlinked meanwhile takes the bytes out of sight). -/
def FileWrite (sys : Sys) (fh : Option Handle) (p : List Nat) : Nat × Option String × Sys :=
  match fh with
  | none => (0, some "invalid argument", sys)
  | some h =>
    match sys.find h.path with
    | some (.file c _) => (p.length, none, sys.put h.path (.file (c ++ p) sys.clock))
    | _ => (p.length, none, sys)

/-! ## `internal/fileutil` -/

/-- The time `GenerateFn` hands to the pattern formatter (the local `base`). -/
def GenerateFnBase (now : Time) (rotationTime : Int) : Time :=
  if now.Location ≠ Location.utc then
    let base := Date now.wall Location.utc
    let base := base.Truncate rotationTime
    Date base.wall base.Location
  else
    now.Truncate rotationTime

/-- The function `fileutil.GenerateFn(pattern, clock, rotationTime)`, `now`
being `clock.Now()`. -/
def GenerateFn (L : Lib) (pattern : String) (now : Time) (rotationTime : Int) : String :=
  L.format pattern (GenerateFnBase now rotationTime)

/-- The function `fileutil.CreateFile`. -/
def CreateFile (L : Lib) (sys : Sys) (filename : String) : Except String (Handle × Sys) :=
  let dirname := L.dir filename
  match MkdirAll sys dirname with
  | .error e => .error ("failed to create directory " ++ dirname ++ ": " ++ e)
  | .ok _ =>
    match OpenAppend sys filename with
    | .error e => .error ("failed to open file " ++ filename ++ ": " ++ e)
    | .ok r => .ok r

/-- The function `fileutil.CompressFile`; the second component is the system
state it leaves behind, also when it fails. -/
def CompressFile (L : Lib) (sys : Sys) (filePath fileSuffix : String) (withTime : Bool) :
    Except String Unit × Sys :=
  match ReadFile L sys filePath with
  | none => (.error ("open " ++ filePath ++ ": no such file or directory"), sys)
  | some content =>
    let timeOnFile := if withTime then "-" ++ L.stamp sys.clock else ""
    let fileSuffix := if fileSuffix ≠ "" then "-" ++ fileSuffix else fileSuffix
    let out := filePath ++ timeOnFile ++ fileSuffix ++ ".gz"
    match Create sys out with
    | .error e => (.error e, sys)
    | .ok (_, sys1) =>
      -- the deferred `w.Close()` flushes the compressed bytes on every exit
      let sys2 := sys1.put out (.file (L.gzip content) sys1.clock)
      match Remove sys2 filePath with
      | .error e => (.error e, sys2)
      | .ok sys3 => (.ok (), sys3)

/-! ## `interface.go`: the writer's state -/

/-- The struct `RotateLogs`. The `mutex` is not represented (every operation
below runs under it); `clock` is represented by the reading `now` given to
each operation; `eventHandler` records whether a handler is registered.
`generation` (a Go `int`) is a natural number: it only grows by probing
existing files, so it stays far below the machine bound. -/
structure RotateLogs where
  curFn : String
  curRn : String
  curBaseFn : String
  curBaseRn : String
  globPattern : String
  generation : Nat
  linkName : String
  maxAge : Int
  eventHandler : Bool
  outFh : Option Handle
  filenamePattern : String
  rotationPattern : String
  rotationTime : Int
  rotationSize : Int
  rotationCount : Nat
  compress : Bool
  forceNewFile : Bool
  timeOnCompression : Bool
  suffixOnCompression : String
  rotationPeriod : String
deriving DecidableEq, Repr

/-- The outcome of an operation on the writer: the value returned next to the
writer and system states it leaves. -/
structure Ret (α : Type) where
  val : Except String α
  rl : RotateLogs
  sys : Sys

/-! ## `rotatelogs.go` -/

/-- The function `strings.HasSuffix`. -/
def HasSuffix (s suffix : String) : Bool := suffix.data.isSuffixOf s.data

/-- Whether `sub` starts the character list `s`. -/
def startsWith : List Char → List Char → Bool
  | _, [] => true
  | [], _ :: _ => false
  | c :: s, d :: sub => decide (c = d) && startsWith s sub

/-- Whether `sub` occurs in the character list `s`. -/
def occursIn (sub : List Char) : List Char → Bool
  | [] => sub.isEmpty
  | c :: s => startsWith (c :: s) sub || occursIn sub s

/-- The function `strings.Contains`. -/
def Contains (s sub : String) : Bool := occursIn sub.data s.data

/-- The result of `time.Parse(layout, rl.clock.Now().Format(layout))` for a
layout made of year, month, day and hour fields: the UTC time showing those
fields; a year that does not print as four digits fails to parse and the
ignored error leaves the zero time. -/
def parseFields (y m d h : Int) : Time :=
  if 0 ≤ y ∧ y ≤ 9999 then Date (daysFromCivil y m d * nsDay + h * nsHour) Location.utc
  else Date 0 Location.utc

/-- The `switch rl.rotationPeriod` of `getWriterNolock`: `theTime` and
`multiplyConstant`; an unlisted period leaves both at their zero values. -/
def periodStart (rotationPeriod : String) (now : Time) : Time × Int :=
  if rotationPeriod = "ROTATE_PERIOD_HOURLY" then
    (parseFields now.Year now.Month now.Day now.Hour, 1)
  else if rotationPeriod = "ROTATE_PERIOD_DAILY" then
    (parseFields now.Year now.Month now.Day 0, 24)
  else if rotationPeriod = "ROTATE_PERIOD_MONTHLY" then
    (parseFields now.Year now.Month 1 0, 30 * 24)
  else if rotationPeriod = "ROTATE_PERIOD_YEARLY" then
    (parseFields now.Year 1 1 0, 365 * 24)
  else (Date 0 Location.utc, 0)

/-- The comparison keys `(comparationBaseFn, comparationBaseRn)` as they stand
after the `if rl.rotationPeriod != ""` block. -/
def comparationKeys (L : Lib) (rl : RotateLogs) (now : Time) : String × String :=
  if rl.rotationPeriod ≠ "" then
    let theTime := (periodStart rl.rotationPeriod now).1
    let multiplyConstant := (periodStart rl.rotationPeriod now).2
    -- `fakeTime.Now()` is `theTime`
    (GenerateFn L rl.filenamePattern theTime (nsHour * multiplyConstant - 1),
     GenerateFn L rl.rotationPattern theTime (nsHour * multiplyConstant - 1))
  else
    (GenerateFn L rl.filenamePattern now rl.rotationTime,
     GenerateFn L rl.rotationPattern now rl.rotationTime)

/-- The flag `sizeRotation`: `os.Stat(rl.curFn)` succeeds, a max size is set
and the file has reached it. -/
def sizeRotation (L : Lib) (rl : RotateLogs) (sys : Sys) : Bool :=
  match Stat L sys rl.curFn with
  | some fi => decide (0 < rl.rotationSize) && decide (rl.rotationSize ≤ fi.size)
  | none => false

/-- The name tried for a generation: `filename` itself for generation 0,
otherwise `fmt.Sprintf("%s.%d", filename, generation)`. -/
def genName (filename : String) (generation : Nat) : String :=
  if generation = 0 then filename else filename ++ "." ++ String.mk (itoa generation)

/-- The probing `for` loop of `getWriterNolock`, run for at most `fuel`
iterations: the first name from `generation` on that `os.Stat` does not find,
with its generation. -/
def probe (L : Lib) (sys : Sys) (filename : String) : Nat → Nat → Option (String × Nat)
  | 0, _ => none
  | fuel + 1, generation =>
    if Stat L sys (genName filename generation) = none then
      some (genName filename generation, generation)
    else probe L sys filename fuel (generation + 1)

/-- The body of the retention loop of `rotateNolock` for one glob match:
whether `path` is appended to `toUnlink`. -/
def keepForUnlink (L : Lib) (rl : RotateLogs) (sys : Sys) (cutoff : Time) (path : String) : Bool :=
  if HasSuffix path "_lock" || HasSuffix path "_symlink" then false
  else
    match Stat L sys path with
    | none => false
    | some fi =>
      match Lstat sys path with
      | none => false
      | some fl =>
        if decide (0 < rl.maxAge) && decide (cutoff.abs < fi.modTime) then false
        else if decide (0 < rl.rotationCount) && fl.isSymlink then false
        else true

/-- The list `toUnlink` as it reaches the detached unlink loop of
`rotateNolock`, computed from the glob matches; empty when nothing is removed. -/
def selectUnlink (L : Lib) (rl : RotateLogs) (sys : Sys) (now : Time) (globMatches : List String) :
    List String :=
  let cutoff := now.Add (-1 * rl.maxAge)
  let toUnlink := globMatches.filter (keepForUnlink L rl sys cutoff)
  if 0 < rl.rotationCount then
    if rl.rotationCount ≥ toUnlink.length then []
    else toUnlink.take (toUnlink.length - rl.rotationCount)
  else toUnlink

/-- The `if rl.linkName != ""` block of `rotateNolock`. -/
def updateLink (L : Lib) (rl : RotateLogs) (sys : Sys) (filename : String) : Except String Unit × Sys :=
  let tmpLinkName := filename ++ "_symlink"
  let linkDir := L.dir rl.linkName
  let baseDir := L.dir filename
  match (if Contains rl.linkName baseDir then L.rel linkDir filename else .ok filename) with
  | .error e => (.error ("failed to evaluate relative path: " ++ e), sys)
  | .ok linkDest =>
    match Symlink sys linkDest tmpLinkName with
    | .error e => (.error ("failed to create new symlink: " ++ e), sys)
    | .ok sys1 =>
      match (if Stat L sys1 linkDir = none then MkdirAll sys1 linkDir else .ok ()) with
      | .error e => (.error ("failed to create directory " ++ linkDir ++ ": " ++ e), sys1)
      | .ok _ =>
        match Rename sys1 tmpLinkName rl.linkName with
        | .error e => (.error ("failed to rename new symlink: " ++ e), sys1)
        | .ok sys2 => (.ok (), sys2)

/-- The part of `rotateNolock` that runs while the lock sentinel is held. -/
def rotateLocked (L : Lib) (rl : RotateLogs) (sys : Sys) (now : Time) (filename : String) :
    Except String Unit × Sys :=
  match (if rl.linkName ≠ "" then updateLink L rl sys filename else (.ok (), sys)) with
  | (.error e, sys1) => (.error e, sys1)
  | (.ok _, sys1) =>
    if rl.maxAge ≤ 0 ∧ rl.rotationCount ≤ 0 then
      (.error "panic: maxAge and rotationCount are both set", sys1)
    else
      match L.glob rl.globPattern sys1.paths with
      | .error e => (.error e, sys1)
      | .ok globMatches =>
        (.ok (), { sys1 with unlinkQueue := sys1.unlinkQueue ++ selectUnlink L rl sys1 now globMatches })

/-- The method `rotateNolock(filename)`. The deferred `guard.Run()` closes and
removes the sentinel on every exit taken after it was created. -/
def rotateNolock (L : Lib) (rl : RotateLogs) (sys : Sys) (now : Time) (filename : String) :
    Except String Unit × Sys :=
  let lockfn := filename ++ "_lock"
  match OpenExcl sys lockfn with
  | .error e => (.error e, sys)
  | .ok (_, sys1) =>
    let r := rotateLocked L rl sys1 now filename
    (r.1, match Remove r.2 lockfn with
          | .ok sys2 => sys2
          | .error _ => r.2)

/-- What the first half of `getWriterNolock` settles: `reuse` is the early
`return rl.outFh, nil`; `target` carries the system state reached (after a
possible compression), `previousFn`, and the `filename` and `generation` with
which the code arrives at `fileutil.CreateFile`; `diverge` stands for a probing
loop that never finds an unused name. -/
inductive Choice where
  | reuse
  | diverge
  | target (sys : Sys) (previousFn filename : String) (generation : Nat)
deriving DecidableEq

/-- The block `if forceNewFile { for { .. } }` of `getWriterNolock`. The loop
is given `len(nodes) + 1` iterations; `probe_total` shows it never needs more. -/
def pickName (L : Lib) (sys : Sys) (previousFn filename : String) (generation : Nat)
    (forceNewFile : Bool) : Choice :=
  if forceNewFile then
    match probe L sys filename (sys.nodes.length + 1) generation with
    | none => .diverge
    | some (name, generation) => .target sys previousFn name generation
  else .target sys previousFn filename generation

/-- The block `if rl.compress { if rl.curFn != "" { .. } }` run at a boundary
crossing: the system state after `fileutil.CompressFile` (whose error is
dropped) and the value of `previousFn`. -/
def compressOutgoing (L : Lib) (rl : RotateLogs) (sys : Sys) : Sys × String :=
  if rl.compress ∧ rl.curFn ≠ "" then
    ((CompressFile L sys rl.curFn rl.suffixOnCompression rl.timeOnCompression).2, rl.curFn ++ ".gz")
  else (sys, rl.curFn)

/-- The first half of `getWriterNolock`, up to the call of `CreateFile`: the
keys, the size check, the boundary test with compression, the early return and
the choice of the file name. -/
def chooseTarget (L : Lib) (rl : RotateLogs) (sys : Sys) (now : Time)
    (useGenerationalNames : Bool) : Choice :=
  let generation := rl.generation
  let baseFn := GenerateFn L rl.filenamePattern now rl.rotationTime
  let comparationBaseFn := (comparationKeys L rl now).1
  let comparationBaseRn := (comparationKeys L rl now).2
  let sizeRot := sizeRotation L rl sys
  if comparationBaseFn ≠ rl.curBaseFn ∨ comparationBaseRn ≠ rl.curBaseRn then
    pickName L (compressOutgoing L rl sys).1 (compressOutgoing L rl sys).2 baseFn 0
      (sizeRot || rl.forceNewFile)
  else if !useGenerationalNames && !sizeRot then
    .reuse
  else
    pickName L sys rl.curFn baseFn (generation + 1) true

/-- The writer state after the assignments `rl.outFh = fh .. rl.generation =
generation`. -/
def adopted (rl : RotateLogs) (fh : Handle) (baseFn baseRn filename : String) (generation : Nat) :
    RotateLogs :=
  { rl with outFh := some fh, curBaseFn := baseFn, curBaseRn := baseRn, curRn := baseRn,
            curFn := filename, generation := generation }

/-- The statement `go h.Handle(&FileRotatedEvent{..})` under `if h != nil`. -/
def notify (rl : RotateLogs) (sys : Sys) (previousFn filename : String) : Sys :=
  if rl.eventHandler then
    { sys with events := sys.events ++ [{ prev := previousFn, current := filename }] }
  else sys

/-- The second half of `getWriterNolock`, from `fileutil.CreateFile` on:
creation, `rotateNolock`, adoption of the new file and the event. -/
def adoptTarget (L : Lib) (rl : RotateLogs) (sys : Sys) (now : Time) (bailOnRotateFail : Bool)
    (baseFn baseRn previousFn filename : String) (generation : Nat) : Ret (Option Handle) :=
  match CreateFile L sys filename with
  | .error e =>
    { val := .error ("failed to create a new file " ++ filename ++ ": " ++ e), rl := rl, sys := sys }
  | .ok (fh, sys1) =>
    match rotateNolock L rl sys1 now filename with
    | (.error e, sys2) =>
      if bailOnRotateFail then
        { val := .error ("failed to rotate: " ++ e), rl := rl, sys := sys2 }
      else
        { val := .ok (some fh),
          rl := adopted rl fh baseFn baseRn filename generation,
          sys := notify rl { sys2 with stderr := sys2.stderr ++ ["failed to rotate: " ++ e] }
                   previousFn filename }
    | (.ok _, sys2) =>
      { val := .ok (some fh),
        rl := adopted rl fh baseFn baseRn filename generation,
        sys := notify rl sys2 previousFn filename }

/-- The method `getWriterNolock(bailOnRotateFail, useGenerationalNames)`. -/
def getWriterNolock (L : Lib) (rl : RotateLogs) (sys : Sys) (now : Time)
    (bailOnRotateFail useGenerationalNames : Bool) : Ret (Option Handle) :=
  match chooseTarget L rl sys now useGenerationalNames with
  | .reuse => { val := .ok rl.outFh, rl := rl, sys := sys }
  | .diverge => { val := .error "no unused name", rl := rl, sys := sys }
  | .target sys1 previousFn filename generation =>
    adoptTarget L rl sys1 now bailOnRotateFail
      (GenerateFn L rl.filenamePattern now rl.rotationTime)
      (GenerateFn L rl.rotationPattern now rl.rotationTime)
      previousFn filename generation

/-- What `Write` returns: the byte count, the error if any, and the states. -/
structure WriteRet where
  n : Nat
  err : Option String
  rl : RotateLogs
  sys : Sys

/-- The method `Write(p)`. -/
def Write (L : Lib) (rl : RotateLogs) (sys : Sys) (now : Time) (p : List Nat) : WriteRet :=
  let r := getWriterNolock L rl sys now false false
  match r.val with
  | .error e => { n := 0, err := some ("failed to acquite target io.Writer: " ++ e), rl := r.rl, sys := r.sys }
  | .ok out =>
    let w := FileWrite r.sys out p
    { n := w.1, err := w.2.1, rl := r.rl, sys := w.2.2 }

/-- What `Rotate` and `Close` return: the error if any, and the states. -/
structure ErrRet where
  err : Option String
  rl : RotateLogs
  sys : Sys

/-- The method `Rotate()`. -/
def Rotate (L : Lib) (rl : RotateLogs) (sys : Sys) (now : Time) : ErrRet :=
  let r := getWriterNolock L rl sys now true true
  match r.val with
  | .error e => { err := some e, rl := r.rl, sys := r.sys }
  | .ok _ => { err := none, rl := r.rl, sys := r.sys }

/-- The method `Close()`. -/
def Close (rl : RotateLogs) (sys : Sys) : ErrRet :=
  if rl.outFh = none then { err := none, rl := rl, sys := sys }
  else { err := none, rl := { rl with outFh := none }, sys := sys }

/-- The method `CurrentFileName()`. -/
def CurrentFileName (rl : RotateLogs) : String := rl.curFn

/-! ## `New` -/

/-- Modelled from the spec: the `Option` values of the configuration surface.
Their constructors (`WithClock`, `WithMaxAge`, ..), the keys `optkey..` and the
type `RotationPeriod` with its constants are declared outside the files at
hand; each constructor below pairs the key returned by `Name()` with the typed
payload returned by `Value()`, as the type assertions in `New` expect them.
`other` is an option whose key the `switch` in `New` does not list. -/
inductive Opt where
  | clock
  | linkName (s : String)
  | maxAge (d : Int)
  | rotationTime (d : Int)
  | rotationSize (n : Int)
  | rotationCount (n : Nat)
  | handler
  | forceNewFile
  | changeGlobPattern (s : String)
  | compression
  | globExtension (s : String)
  | timeOnCompression
  | suffixOnCompression (s : String)
  | rotationPeriod (p : String)
  | other
deriving DecidableEq, Repr

/-- The local variables of `New` that the option loop assigns. -/
structure Locals where
  globPattern : String
  rotationTime : Int
  rotationSize : Int
  rotationCount : Nat
  linkName : String
  maxAge : Int
  handler : Bool
  compress : Bool
  forceNewFile : Bool
  timeOnCompression : Bool
  suffixOnCompression : String
  rotationPeriod : String
deriving DecidableEq, Repr

/-- One iteration of `for _, o := range options`. The `case` constants of the
inner `switch` on the rotation period are taken to match the payload. -/
def applyOpt (v : Locals) : Opt → Locals
  | .clock => v
  | .linkName s => { v with linkName := s }
  | .maxAge d => { v with maxAge := if d < 0 then 0 else d }
  | .rotationTime d => { v with rotationTime := if d < 0 then 0 else d }
  | .rotationSize n => { v with rotationSize := if n < 0 then 0 else n }
  | .rotationCount n => { v with rotationCount := n }
  | .handler => { v with handler := true }
  | .forceNewFile => { v with forceNewFile := true }
  | .changeGlobPattern s => { v with globPattern := s }
  | .compression => { v with globPattern := v.globPattern ++ ".gz", compress := true }
  | .globExtension s => { v with globPattern := v.globPattern ++ s }
  | .timeOnCompression => { v with timeOnCompression := true }
  | .suffixOnCompression s => { v with suffixOnCompression := s }
  | .rotationPeriod p =>
    { v with
      rotationPeriod := p,
      rotationTime :=
        if p = "ROTATE_PERIOD_HOURLY" then 1 * nsHour
        else if p = "ROTATE_PERIOD_DAILY" then 24 * nsHour
        else if p = "ROTATE_PERIOD_MONTHLY" then 30 * 24 * nsHour
        else if p = "ROTATE_PERIOD_YEARLY" then 365 * 24 * nsHour
        else v.rotationTime }
  | .other => v

/-- The character class `[%+A-Za-z]`. -/
def isDirectiveChar (c : Char) : Bool := c = '%' || c = '+' || c.isAlpha

/-- Replace every match of the regexp `%[%+A-Za-z]` by `*`, scanning left to
right; `pending` tells that the previous character was an unmatched `%`. -/
def replaceDirectivesFrom : Bool → List Char → List Char
  | false, [] => []
  | true, [] => ['%']
  | false, c :: rest =>
    if c = '%' then replaceDirectivesFrom true rest else c :: replaceDirectivesFrom false rest
  | true, c :: rest =>
    if isDirectiveChar c then '*' :: replaceDirectivesFrom false rest
    else '%' :: c :: replaceDirectivesFrom false rest

/-- The call `re.ReplaceAllString(globPattern, "*")` for the first regexp. -/
def replaceDirectives (p : List Char) : List Char := replaceDirectivesFrom false p

/-- Replace every match of the regexp `\*+` by `*`. -/
def collapseStars : List Char → List Char
  | [] => []
  | c :: rest =>
    if c = '*' ∧ rest.head? = some '*' then collapseStars rest
    else c :: collapseStars rest

/-- The loop over `patternConversionRegexps`. -/
def toGlobPattern (p : String) : String := String.mk (collapseStars (replaceDirectives p.data))

/-- The local variables of `New` as declared before the option loop. -/
def initialLocals (p : String) : Locals :=
  { globPattern := p, rotationTime := 24 * nsHour, rotationSize := 0, rotationCount := 0,
    linkName := "", maxAge := 0, handler := false, compress := false, forceNewFile := false,
    timeOnCompression := false, suffixOnCompression := "", rotationPeriod := "" }

/-- The local variables of `New` after `for _, o := range options`. -/
def optionLocals (p : String) (options : List Opt) : Locals :=
  options.foldl applyOpt (initialLocals p)

/-- The constructor `New(p, options...)`. -/
def New (L : Lib) (p : String) (options : List Opt) : Except String RotateLogs :=
  if !L.validPattern p then .error "invalid strftime pattern"
  else if !L.validPattern "%Y%m%d%H%M%S" then .error "invalid strftime pattern"
  else
    let v := optionLocals p options
    let globPattern := toGlobPattern v.globPattern
    if 0 < v.maxAge ∧ 0 < v.rotationCount then
      .error "options MaxAge and RotationCount cannot be both set"
    else
      let maxAge := if v.maxAge = 0 ∧ v.rotationCount = 0 then 7 * 24 * nsHour else v.maxAge
      .ok { curFn := "", curRn := "", curBaseFn := "", curBaseRn := "", generation := 0,
            outFh := none,
            eventHandler := v.handler,
            globPattern := globPattern,
            linkName := v.linkName,
            maxAge := maxAge,
            filenamePattern := p,
            rotationTime := v.rotationTime,
            rotationSize := v.rotationSize,
            rotationCount := v.rotationCount,
            forceNewFile := v.forceNewFile,
            compress := v.compress,
            timeOnCompression := v.timeOnCompression,
            suffixOnCompression := v.suffixOnCompression,
            rotationPattern := "%Y%m%d%H%M%S",
            rotationPeriod := v.rotationPeriod }

/-! ## A concrete library for worked runs -/

/-- The directory part of a path given as characters in reverse order. -/
def dirRev : List Char → List Char
  | [] => []
  | c :: rest => if c = '/' then rest else dirRev rest

/-- A simplified `filepath.Dir`: everything before the last slash, `.` when
there is none. -/
def simpleDir (p : String) : String :=
  if p.data.contains '/' then String.mk (dirRev p.data.reverse).reverse else "."

/-- Whether a path matches a glob made of literal characters and `*`. -/
def globMatch : List Char → List Char → Bool
  | [], s => s.isEmpty
  | c :: pat, s =>
    if c = '*' then s.tails.any (fun t => globMatch pat t)
    else
      match s with
      | [] => false
      | d :: rest => decide (c = d) && globMatch pat rest

/-- A library instance covering the strftime directives `%Y %m %d %H %M %S %z %%`
and globs over literal characters and `*`; link targets are taken as written,
gzip is left as the identity and the compression stamp is the clock reading. -/
def stdLib : Lib where
  validPattern := fun p => knownPattern p.data
  format := fun p t => String.mk (expand t p.data)
  glob := fun pat paths => .ok (paths.filter (fun q => globMatch pat.data q.data))
  dir := simpleDir
  rel := fun _ target => .ok target
  resolve := fun _ target => target
  gzip := fun b => b
  stamp := fun c => String.mk (itoa c.toNat)

/-- An empty system: no files, nothing denied. -/
def emptySys : Sys :=
  { nodes := [], denied := [], nextFd := 3, clock := 0, events := [], unlinkQueue := [], stderr := [] }

/-- The UTC time showing `y-m-d h:mi:s`. -/
def utcTime (y m d h mi s : Int) : Time :=
  Date (daysFromCivil y m d * nsDay + h * nsHour + mi * (60 * nsSecond) + s * nsSecond) Location.utc


/-- The number a little-endian digit list stands for. -/
def ofDigitsRev : List Nat → Nat
  | [] => 0
  | d :: ds => d + 10 * ofDigitsRev ds

/-- The digit a decimal character stands for. -/
def charVal (c : Char) : Nat := c.toNat - 48

/-- The size condition of a quiet write: the max size is disabled, or the
current file, when `os.Stat` finds it, is smaller than the max size. -/
def belowMaxSize (L : Lib) (rl : RotateLogs) (sys : Sys) : Bool :=
  decide (rl.rotationSize ≤ 0) ||
    (match Stat L sys rl.curFn with
     | some fi => decide (fi.size < rl.rotationSize)
     | none => true)

/-- A run of `Write` calls, each given its clock reading and its bytes: the
final writer and system states and what each call returned. -/
def WriteSeq (L : Lib) (rl : RotateLogs) (sys : Sys) :
    List (Time × List Nat) → RotateLogs × Sys × List (Nat × Option String)
  | [] => (rl, sys, [])
  | w :: rest =>
    let r := Write L rl sys w.1 w.2
    let t := WriteSeq L r.rl r.sys rest
    (t.1, t.2.1, (r.n, r.err) :: t.2.2)

/-- Every write of the run happens at an instant that truncates like `t0` and
finds the current file below the max size. -/
def quietWrites (L : Lib) (rl : RotateLogs) (t0 : Time) : Sys → List (Time × List Nat) → Bool
  | _, [] => true
  | sys, w :: rest =>
    decide (GenerateFnBase w.1 rl.rotationTime = GenerateFnBase t0 rl.rotationTime) &&
    belowMaxSize L rl sys &&
    quietWrites L rl t0 (Write L rl sys w.1 w.2).sys rest

/-- The candidate files of count-mode retention, in the words of the
specification: readable by `os.Stat` and `os.Lstat`, not a symlink, and not
ending in `_lock` or `_symlink`. -/
def countCandidate (L : Lib) (sys : Sys) (p : String) : Bool :=
  !HasSuffix p "_lock" && !HasSuffix p "_symlink" && (Stat L sys p).isSome &&
    (match Lstat sys p with
     | some fl => !fl.isSymlink
     | none => false)

/-- The modification time `os.Stat` reports for a path (0 when it cannot be read). -/
def modTimeOf (L : Lib) (sys : Sys) (p : String) : Int :=
  match Stat L sys p with
  | some fi => fi.modTime
  | none => 0

/-! ## Worked configurations -/

/-- The zero value of `RotateLogs`. -/
def blank : RotateLogs :=
  { curFn := "", curRn := "", curBaseFn := "", curBaseRn := "", globPattern := "", generation := 0,
    linkName := "", maxAge := 0, eventHandler := false, outFh := none, filenamePattern := "",
    rotationPattern := "", rotationTime := 0, rotationSize := 0, rotationCount := 0,
    compress := false, forceNewFile := false, timeOnCompression := false,
    suffixOnCompression := "", rotationPeriod := "" }

/-- The writer `New(p, options...)` builds over `stdLib` (`blank` if it fails). -/
def newOr (p : String) (options : List Opt) : RotateLogs :=
  match New stdLib p options with
  | .ok rl => rl
  | .error _ => blank

/-- The system with its OS clock set to the instant of `t`. -/
def Sys.atTime (sys : Sys) (t : Time) : Sys := { sys with clock := t.abs }

/-- 2024-03-01 10:00:00 UTC. -/
def tMar1 : Time := utcTime 2024 3 1 10 0 0

/-- 2024-03-02 00:00:01 UTC. -/
def tMar2 : Time := utcTime 2024 3 2 0 0 1

/-- A daily writer named by date, after one `Write` of the byte `a` on March 1. -/
def dailyFirst : WriteRet :=
  Write stdLib (newOr "app.%Y%m%d.log" []) (emptySys.atTime tMar1) tMar1 [97]

/-- A writer whose pattern has no time directive, after one `Write` on March 1. -/
def constFirst : WriteRet :=
  Write stdLib (newOr "app.log" []) (emptySys.atTime tMar1) tMar1 [97]

/-- The `Write` that follows `constFirst` on March 2. -/
def constSecond : WriteRet :=
  Write stdLib constFirst.rl (constFirst.sys.atTime tMar2) tMar2 [98]

/-- A fresh daily writer after `Rotate()` on March 1. -/
def rotatedOnce : ErrRet :=
  Rotate stdLib (newOr "app.%Y%m%d.log" []) (emptySys.atTime tMar1) tMar1

/-- A system in which the lock sentinel of the March 1 file already exists. -/
def lockedSys : Sys :=
  { (emptySys.atTime tMar1) with nodes := [("app.20240301.log_lock", Node.file [] 0)] }

/-- A count-mode writer (max count 1) whose pattern puts the day first. -/
def dayFirstWriter : RotateLogs := newOr "%d-%m-%Y.log" [Opt.rotationCount 1]

/-- Two day-first log files: January 31 and February 1, 2024, each last
modified at noon of its day. -/
def dayFirstSys : Sys :=
  { emptySys with
    nodes := [("01-02-2024.log", Node.file [98] (utcTime 2024 2 1 12 0 0).abs),
              ("31-01-2024.log", Node.file [97] (utcTime 2024 1 31 12 0 0).abs)],
    clock := (utcTime 2024 2 1 12 0 0).abs }

/-- An age-mode writer (max age one day). -/
def ageWriter : RotateLogs := newOr "app.%Y%m%d.log" [Opt.maxAge nsDay]

/-- Log files of February 28 and March 1, 2024 next to a stale lock sentinel. -/
def ageSys : Sys :=
  { emptySys with
    nodes := [("app.20240228.log", Node.file [97] (utcTime 2024 2 28 12 0 0).abs),
              ("app.20240301.log", Node.file [98] (utcTime 2024 3 1 9 0 0).abs),
              ("app.20240101.log_lock", Node.file [] (utcTime 2024 1 1 0 0 0).abs)],
    clock := tMar1.abs }

/-- An hourly writer (`WithRotationPeriod`) with a handler, after one `Write`
at 10:00:00 UTC on March 1. -/
def hourlyFirst : WriteRet :=
  Write stdLib (newOr "app.%Y%m%d%H.log" [Opt.rotationPeriod "ROTATE_PERIOD_HOURLY", Opt.handler])
    (emptySys.atTime tMar1) tMar1 [97]

/-- The `Write` that follows `hourlyFirst` at the same instant. -/
def hourlySecond : WriteRet := Write stdLib hourlyFirst.rl hourlyFirst.sys tMar1 [98]

/-- As `hourlyFirst`, with compression enabled. -/
def hourlyGzFirst : WriteRet :=
  Write stdLib
    (newOr "app.%Y%m%d%H.log" [Opt.rotationPeriod "ROTATE_PERIOD_HOURLY", Opt.compression])
    (emptySys.atTime tMar1) tMar1 [97]

/-- The `Write` that follows `hourlyGzFirst` at the same instant. -/
def hourlyGzSecond : WriteRet := Write stdLib hourlyGzFirst.rl hourlyGzFirst.sys tMar1 [98]

/-- An hourly writer whose interval is one day, after one `Write` at 10:00:00
UTC on March 1. -/
def hourlyDayFirst : WriteRet :=
  Write stdLib
    (newOr "app.%Y%m%d%H.log" [Opt.rotationPeriod "ROTATE_PERIOD_HOURLY", Opt.rotationTime nsDay])
    (emptySys.atTime tMar1) tMar1 [97]

/-- A daily writer (`WithRotationPeriod`), after one `Write` at 10:00:00 UTC on
March 1. -/
def dailyPeriodFirst : WriteRet :=
  Write stdLib (newOr "app.%Y%m%d.log" [Opt.rotationPeriod "ROTATE_PERIOD_DAILY"])
    (emptySys.atTime tMar1) tMar1 [97]

/-- The writer and system left by `Close()` after `dailyFirst`. -/
def dailyClosed : ErrRet := Close dailyFirst.rl dailyFirst.sys

/-- A fresh hourly writer (`WithRotationPeriod`) after `Rotate()` at 10:00:00
UTC on March 1 in an empty directory. -/
def hourlyRotatedOnce : ErrRet :=
  Rotate stdLib (newOr "app.%Y%m%d%H.log" [Opt.rotationPeriod "ROTATE_PERIOD_HOURLY"])
    (emptySys.atTime tMar1) tMar1

/-- The `Rotate()` that follows `hourlyRotatedOnce` at the same instant. -/
def hourlyRotatedTwice : ErrRet :=
  Rotate stdLib hourlyRotatedOnce.rl hourlyRotatedOnce.sys tMar1

/-- As `hourlyRotatedOnce`, the interval being left at one day. -/
def hourlyDayRotatedOnce : ErrRet :=
  Rotate stdLib
    (newOr "app.%Y%m%d%H.log" [Opt.rotationPeriod "ROTATE_PERIOD_HOURLY", Opt.rotationTime nsDay])
    (emptySys.atTime tMar1) tMar1

/-- The `Rotate()` that follows `hourlyDayRotatedOnce` at the same instant. -/
def hourlyDayRotatedTwice : ErrRet :=
  Rotate stdLib hourlyDayRotatedOnce.rl hourlyDayRotatedOnce.sys tMar1

/-- Half a second after `tMar1`. -/
def tHalf : Time := Date (tMar1.wall + nsSecond / 2) Location.utc

/-- A writer with a half-second interval after two `Rotate()` calls at `tMar1`:
its current file is `app.20240301.log.1`. -/
def halfRotated : ErrRet :=
  Rotate stdLib
    (Rotate stdLib (newOr "app.%Y%m%d.log" [Opt.rotationTime (nsSecond / 2)])
      (emptySys.atTime tMar1) tMar1).rl
    (Rotate stdLib (newOr "app.%Y%m%d.log" [Opt.rotationTime (nsSecond / 2)])
      (emptySys.atTime tMar1) tMar1).sys
    tMar1

/-- The `Write` that follows `halfRotated` half a second later. -/
def halfWrite : WriteRet := Write stdLib halfRotated.rl halfRotated.sys tHalf [98]

/-- 2018-06-01 03:18:00 on a clock nine hours east of UTC. -/
def tTokyo : Time := Date (utcTime 2018 6 1 3 18 0).wall (Location.zone "JST" (9 * nsHour))

/-! # Theorems -/

/-! ## Decimal rendering -/

theorem ofDigitsRev_digitsRev (fuel n : Nat) (h : n < fuel) :
    ofDigitsRev (digitsRev fuel n) = n := by
  induction fuel generalizing n with
  | zero => omega
  | succ f ih =>
    unfold digitsRev
    split
    · simp [ofDigitsRev]
    · have h2 : n / 10 < f := by omega
      simp only [ofDigitsRev, ih _ h2]
      omega

theorem digitsRev_lt (fuel n : Nat) : ∀ d ∈ digitsRev fuel n, d < 10 := by
  induction fuel generalizing n with
  | zero => simp [digitsRev]
  | succ f ih =>
    unfold digitsRev
    split
    · intro d hd
      simp at hd
      omega
    · intro d hd
      simp only [List.mem_cons] at hd
      rcases hd with hd | hd
      · omega
      · exact ih _ d hd

theorem charVal_digitChar (d : Nat) (h : d < 10) : charVal (digitChar d) = d := by
  interval_cases d <;> decide

theorem map_charVal_digitChar (l : List Nat) (h : ∀ d ∈ l, d < 10) :
    (l.map digitChar).map charVal = l := by
  induction l with
  | nil => rfl
  | cons a t ih =>
    simp only [List.map_cons, List.cons.injEq]
    exact ⟨charVal_digitChar a (h a (List.mem_cons_self _ _)),
      ih (fun d hd => h d (List.mem_cons_of_mem _ hd))⟩

theorem itoa_injective {a b : Nat} (h : itoa a = itoa b) : a = b := by
  unfold itoa at h
  have ha := map_charVal_digitChar (digitsRev (a + 1) a).reverse
    (fun d hd => digitsRev_lt _ _ d (List.mem_reverse.mp hd))
  have hb := map_charVal_digitChar (digitsRev (b + 1) b).reverse
    (fun d hd => digitsRev_lt _ _ d (List.mem_reverse.mp hd))
  rw [h, hb] at ha
  have hrev : digitsRev (b + 1) b = digitsRev (a + 1) a := List.reverse_injective ha
  have := congrArg ofDigitsRev hrev
  rw [ofDigitsRev_digitsRev _ _ (Nat.lt_succ_self _), ofDigitsRev_digitsRev _ _ (Nat.lt_succ_self _)] at this
  exact this.symm

theorem genName_zero (f : String) : genName f 0 = f := by
  simp [genName]

theorem genName_succ (f : String) (k : Nat) :
    genName f (k + 1) = f ++ "." ++ String.mk (itoa (k + 1)) := by
  simp [genName]

theorem genName_data_pos (f : String) (k : Nat) (h : 0 < k) :
    (genName f k).data = f.data ++ '.' :: itoa k := by
  have : k ≠ 0 := by omega
  simp [genName, this]

theorem genName_injective (f : String) {a b : Nat} (h : genName f a = genName f b) : a = b := by
  have hd := congrArg String.data h
  rcases Nat.eq_zero_or_pos a with ha | ha <;> rcases Nat.eq_zero_or_pos b with hb | hb
  · omega
  · subst ha
    rw [genName_zero, genName_data_pos f b hb] at hd
    have := congrArg List.length hd
    simp at this
  · subst hb
    rw [genName_zero, genName_data_pos f a ha] at hd
    have := congrArg List.length hd
    simp at this
  · rw [genName_data_pos f a ha, genName_data_pos f b hb] at hd
    have := List.append_cancel_left hd
    simp only [List.cons.injEq, true_and] at this
    exact itoa_injective this

/-! ## The file system -/

theorem find_ne_none_mem_paths (sys : Sys) (p : String) (h : sys.find p ≠ none) :
    p ∈ sys.paths := by
  unfold Sys.find at h
  split at h
  · exact absurd rfl h
  cases hf : sys.nodes.find? (fun e => decide (e.1 = p)) with
  | none => simp [hf] at h
  | some e =>
    have hm := List.mem_of_find?_eq_some hf
    have hp := List.find?_some hf
    simp only [decide_eq_true_eq] at hp
    unfold Sys.paths
    exact List.mem_map.mpr ⟨e, hm, hp⟩

theorem follow_find (L : Lib) (sys : Sys) (fuel : Nat) (p : String)
    (h : follow L sys fuel p ≠ none) : sys.find p ≠ none := by
  cases fuel with
  | zero => simp [follow] at h
  | succ f =>
    intro hn
    simp [follow, hn] at h

theorem Stat_find (L : Lib) (sys : Sys) (p : String) (h : Stat L sys p ≠ none) :
    sys.find p ≠ none := by
  apply follow_find L sys 40 p
  intro hn
  simp [Stat, hn] at h

theorem Stat_mem_paths (L : Lib) (sys : Sys) (p : String) (h : Stat L sys p ≠ none) :
    p ∈ sys.paths :=
  find_ne_none_mem_paths sys p (Stat_find L sys p h)

theorem Lstat_of_Stat (L : Lib) (sys : Sys) (p : String) (h : Stat L sys p ≠ none) :
    Lstat sys p ≠ none := by
  have hf := Stat_find L sys p h
  unfold Lstat
  cases hn : sys.find p with
  | none => exact absurd hn hf
  | some n => cases n <;> simp

/-! ## The probing loop -/

theorem probe_spec (L : Lib) (sys : Sys) (f : String) (fuel g : Nat) (name : String) (k : Nat)
    (h : probe L sys f fuel g = some (name, k)) :
    name = genName f k ∧ g ≤ k ∧ Stat L sys (genName f k) = none ∧
      ∀ j, g ≤ j → j < k → Stat L sys (genName f j) ≠ none := by
  induction fuel generalizing g with
  | zero => simp [probe] at h
  | succ n ih =>
    unfold probe at h
    by_cases hs : Stat L sys (genName f g) = none
    · simp only [hs, if_true, Option.some.injEq, Prod.mk.injEq] at h
      obtain ⟨h1, h2⟩ := h
      subst h2
      exact ⟨h1.symm, le_refl _, hs, fun j hj hj2 => by omega⟩
    · simp only [hs, if_false] at h
      obtain ⟨h1, h2, h3, h4⟩ := ih (g + 1) h
      refine ⟨h1, by omega, h3, fun j hj hj2 => ?_⟩
      rcases Nat.eq_or_lt_of_le hj with hj3 | hj3
      · subst hj3
        exact hs
      · exact h4 j hj3 hj2

theorem probe_none (L : Lib) (sys : Sys) (f : String) (fuel g : Nat)
    (h : probe L sys f fuel g = none) :
    ∀ j, j < fuel → Stat L sys (genName f (g + j)) ≠ none := by
  induction fuel generalizing g with
  | zero => intro j hj; omega
  | succ n ih =>
    unfold probe at h
    by_cases hs : Stat L sys (genName f g) = none
    · simp [hs] at h
    · simp only [hs, if_false] at h
      intro j hj
      cases j with
      | zero => simpa using hs
      | succ i =>
        have := ih (g + 1) h i (by omega)
        rwa [show g + 1 + i = g + (i + 1) by omega] at this

/-- The probing loop terminates: within `len(nodes) + 1` iterations it finds a
name that `os.Stat` does not find, whatever the (finite) file system holds. -/
theorem probe_total (L : Lib) (sys : Sys) (f : String) (g : Nat) :
    ∃ r, probe L sys f (sys.nodes.length + 1) g = some r := by
  cases hp : probe L sys f (sys.nodes.length + 1) g with
  | some r => exact ⟨r, rfl⟩
  | none =>
    exfalso
    have hall := probe_none L sys f _ g hp
    let names := (List.range (sys.nodes.length + 1)).map (fun j => genName f (g + j))
    have hnodup : names.Nodup := by
      apply List.Nodup.map _ (List.nodup_range _)
      intro a b hab
      have := genName_injective f hab
      omega
    have hsub : names ⊆ sys.paths := by
      intro x hx
      obtain ⟨j, hj, rfl⟩ := List.mem_map.mp hx
      exact Stat_mem_paths L sys _ (hall j (List.mem_range.mp hj))
    have hlen := (List.subperm_of_subset hnodup hsub).length_le
    simp [names, Sys.paths] at hlen


/-! ## Retention -/

theorem cutoff_abs (now : Time) (maxAge : Int) :
    (now.Add (-1 * maxAge)).abs = now.abs - maxAge := by
  simp only [Time.Add, Time.abs]
  omega

theorem keepForUnlink_age (L : Lib) (rl : RotateLogs) (sys : Sys) (now : Time) (p : String)
    (hage : 0 < rl.maxAge) (hcnt : rl.rotationCount = 0) :
    keepForUnlink L rl sys (now.Add (-1 * rl.maxAge)) p = true ↔
      HasSuffix p "_lock" = false ∧ HasSuffix p "_symlink" = false ∧
        ∃ fi, Stat L sys p = some fi ∧ fi.modTime ≤ now.abs - rl.maxAge := by
  unfold keepForUnlink
  rw [cutoff_abs]
  cases h1 : HasSuffix p "_lock" <;> cases h2 : HasSuffix p "_symlink" <;> simp
  cases hs : Stat L sys p with
  | none => simp
  | some fi =>
    have hl := Lstat_of_Stat L sys p (by simp [hs])
    cases hl2 : Lstat sys p with
    | none => exact absurd hl2 hl
    | some fl => simp [hage, hcnt]

/-- C6. In age mode (`maxAge > 0`, rotation count 0) the retention sweep selects
exactly the glob matches that `os.Stat` can read, that do not end in `_lock` or
`_symlink`, and whose modification time is not after `now - maxAge`; a file
modified after the cutoff, a lock sentinel and a symlink temporary are never
selected. -/
theorem age_mode_selects_exactly (L : Lib) (rl : RotateLogs) (sys : Sys) (now : Time)
    (globMatches : List String) (hage : 0 < rl.maxAge) (hcnt : rl.rotationCount = 0) :
    (∀ p, p ∈ selectUnlink L rl sys now globMatches ↔
        p ∈ globMatches ∧ HasSuffix p "_lock" = false ∧ HasSuffix p "_symlink" = false ∧
          ∃ fi, Stat L sys p = some fi ∧ fi.modTime ≤ now.abs - rl.maxAge) ∧
    (∀ p fi, Stat L sys p = some fi → now.abs - rl.maxAge < fi.modTime →
        p ∉ selectUnlink L rl sys now globMatches) ∧
    (∀ p, HasSuffix p "_lock" = true ∨ HasSuffix p "_symlink" = true →
        p ∉ selectUnlink L rl sys now globMatches) := by
  have hsel : ∀ p, p ∈ selectUnlink L rl sys now globMatches ↔
      p ∈ globMatches ∧ HasSuffix p "_lock" = false ∧ HasSuffix p "_symlink" = false ∧
        ∃ fi, Stat L sys p = some fi ∧ fi.modTime ≤ now.abs - rl.maxAge := by
    intro p
    simp only [selectUnlink, hcnt, lt_irrefl, if_false, List.mem_filter]
    rw [keepForUnlink_age L rl sys now p hage hcnt]
  refine ⟨hsel, ?_, ?_⟩
  · intro p fi hs hlt hmem
    obtain ⟨_, _, _, fi2, hs2, hle⟩ := (hsel p).mp hmem
    rw [hs] at hs2
    cases hs2
    omega
  · intro p hsuf hmem
    obtain ⟨_, h1, h2, _⟩ := (hsel p).mp hmem
    rcases hsuf with h | h
    · rw [h1] at h; cases h
    · rw [h2] at h; cases h

theorem keepForUnlink_count (L : Lib) (rl : RotateLogs) (sys : Sys) (cutoff : Time) (p : String)
    (hK : 0 < rl.rotationCount) (hage : rl.maxAge ≤ 0) :
    keepForUnlink L rl sys cutoff p = countCandidate L sys p := by
  unfold keepForUnlink countCandidate
  have hna : ¬ (0 < rl.maxAge) := by omega
  cases h1 : HasSuffix p "_lock" <;> cases h2 : HasSuffix p "_symlink" <;> simp
  cases hs : Stat L sys p with
  | none => simp
  | some fi =>
    cases hl : Lstat sys p with
    | none => simp
    | some fl => cases hb : fl.isSymlink <;> simp [hna, hK]

/-- C5 (amended). In count mode with max count `K`, writing `N` for the number
of candidates among the glob matches (readable by `os.Stat` and `os.Lstat`, not
symlinks, not ending in `_lock` or `_symlink`): if `N <= K` nothing is
selected; if `N > K` exactly `N - K` paths are selected and they are the first
`N - K` candidates in glob order; a symlink is never selected; and when the
glob order lists the candidates by non-decreasing modification time, every
selected path is no newer than every retained candidate. -/
theorem count_mode_selects_leading (L : Lib) (rl : RotateLogs) (sys : Sys) (now : Time)
    (globMatches : List String) (hK : 0 < rl.rotationCount) (hage : rl.maxAge ≤ 0) :
    let cands := globMatches.filter (countCandidate L sys)
    let N := cands.length
    let K := rl.rotationCount
    (N ≤ K → selectUnlink L rl sys now globMatches = []) ∧
    (K < N → selectUnlink L rl sys now globMatches = cands.take (N - K) ∧
        (selectUnlink L rl sys now globMatches).length = N - K) ∧
    (∀ p fl, Lstat sys p = some fl → fl.isSymlink = true →
        p ∉ selectUnlink L rl sys now globMatches) ∧
    (cands.Pairwise (fun a b => modTimeOf L sys a ≤ modTimeOf L sys b) →
        ∀ x ∈ selectUnlink L rl sys now globMatches, ∀ y ∈ cands.drop (N - K),
          modTimeOf L sys x ≤ modTimeOf L sys y) := by
  intro cands N K
  have hfilter : globMatches.filter (keepForUnlink L rl sys (now.Add (-1 * rl.maxAge)))
      = cands := by
    apply List.filter_congr
    intro p _
    exact keepForUnlink_count L rl sys _ p hK hage
  have hle : N ≤ K → selectUnlink L rl sys now globMatches = [] := by
    intro h
    simp only [selectUnlink, hK, if_true, hfilter]
    rw [if_pos (show rl.rotationCount ≥ cands.length from h)]
  have hgt : K < N → selectUnlink L rl sys now globMatches = cands.take (N - K) := by
    intro h
    simp only [selectUnlink, hK, if_true, hfilter]
    rw [if_neg (show ¬ rl.rotationCount ≥ cands.length from by
      show ¬ K ≥ N
      omega)]
  have hsub : ∀ p, p ∈ selectUnlink L rl sys now globMatches → p ∈ cands := by
    intro p hp
    rcases Nat.lt_or_ge K N with h | h
    · rw [hgt h] at hp
      exact List.mem_of_mem_take hp
    · rw [hle h] at hp
      cases hp
  refine ⟨hle, ?_, ?_, ?_⟩
  · intro h
    refine ⟨hgt h, ?_⟩
    rw [hgt h, List.length_take]
    show min (N - K) N = N - K
    omega
  · intro p fl hl hsym hmem
    have hc := (List.mem_filter.mp (hsub p hmem)).2
    unfold countCandidate at hc
    simp [hl, hsym] at hc
  · intro hsorted x hx y hy
    rcases Nat.lt_or_ge K N with h | h
    · rw [hgt h] at hx
      have hsplit : cands.take (N - K) ++ cands.drop (N - K) = cands := List.take_append_drop _ _
      rw [← hsplit] at hsorted
      exact (List.pairwise_append.mp hsorted).2.2 x hx y hy
    · rw [hle h] at hx
      cases hx


/-! ## Construction -/

theorem applyOpt_maxAge_nonneg (v : Locals) (o : Opt) (h : 0 ≤ v.maxAge) :
    0 ≤ (applyOpt v o).maxAge := by
  cases o <;> simp only [applyOpt] <;> try exact h
  split <;> omega

theorem foldl_applyOpt_maxAge_nonneg (options : List Opt) (v : Locals) (h : 0 ≤ v.maxAge) :
    0 ≤ (options.foldl applyOpt v).maxAge := by
  induction options generalizing v with
  | nil => exact h
  | cons o t ih => exact ih _ (applyOpt_maxAge_nonneg v o h)

theorem New_error (L : Lib) (p : String) (options : List Opt)
    (hp : L.validPattern p = true) (hr : L.validPattern "%Y%m%d%H%M%S" = true)
    (hboth : 0 < (optionLocals p options).maxAge ∧ 0 < (optionLocals p options).rotationCount) :
    New L p options = .error "options MaxAge and RotationCount cannot be both set" := by
  simp [New, hp, hr, hboth]

theorem New_ok (L : Lib) (p : String) (options : List Opt)
    (hp : L.validPattern p = true) (hr : L.validPattern "%Y%m%d%H%M%S" = true)
    (hnot : ¬ (0 < (optionLocals p options).maxAge ∧ 0 < (optionLocals p options).rotationCount)) :
    ∃ rl, New L p options = .ok rl ∧
      rl.maxAge = (if (optionLocals p options).maxAge = 0 ∧ (optionLocals p options).rotationCount = 0
                   then 7 * 24 * nsHour else (optionLocals p options).maxAge) ∧
      rl.rotationCount = (optionLocals p options).rotationCount := by
  unfold New
  simp only [hp, hr, Bool.not_true, Bool.false_eq_true, if_false, hnot]
  exact ⟨_, rfl, rfl, rfl⟩

/-- C4. For a valid pattern and any option list, `New` returns an error (and no
writer) when the max age and rotation count left by the options are both
positive; otherwise it returns a writer in which exactly one of `maxAge > 0`
and `rotationCount > 0` holds, whose `maxAge` is 7 days whenever neither a
positive max age nor a positive rotation count was configured; a negative max
age option acts as a zero one. -/
theorem New_retention_mode (L : Lib) (p : String) (options : List Opt)
    (hp : L.validPattern p = true) (hr : L.validPattern "%Y%m%d%H%M%S" = true) :
    (0 < (optionLocals p options).maxAge ∧ 0 < (optionLocals p options).rotationCount →
        ∃ e, New L p options = .error e) ∧
    (¬ (0 < (optionLocals p options).maxAge ∧ 0 < (optionLocals p options).rotationCount) →
        ∃ rl, New L p options = .ok rl ∧
          ((0 < rl.maxAge ∧ ¬ 0 < rl.rotationCount) ∨ (¬ 0 < rl.maxAge ∧ 0 < rl.rotationCount)) ∧
          (¬ 0 < (optionLocals p options).maxAge → ¬ 0 < (optionLocals p options).rotationCount →
              rl.maxAge = 7 * 24 * nsHour) ∧
          (0 < (optionLocals p options).maxAge → rl.maxAge = (optionLocals p options).maxAge) ∧
          rl.rotationCount = (optionLocals p options).rotationCount) ∧
    (∀ d : Int, d < 0 → New L p (options ++ [Opt.maxAge d]) = New L p (options ++ [Opt.maxAge 0])) := by
  have hnn : 0 ≤ (optionLocals p options).maxAge :=
    foldl_applyOpt_maxAge_nonneg options _ (by simp [initialLocals])
  have h7 : (0 : Int) < 7 * 24 * nsHour := by decide
  refine ⟨?_, ?_, ?_⟩
  · intro hboth
    exact ⟨_, New_error L p options hp hr hboth⟩
  · intro hnot
    obtain ⟨rl, hrl, hage, hcnt⟩ := New_ok L p options hp hr hnot
    refine ⟨rl, hrl, ?_, ?_, ?_, hcnt⟩
    · by_cases hz : (optionLocals p options).maxAge = 0 ∧ (optionLocals p options).rotationCount = 0
      · rw [if_pos hz] at hage
        left
        constructor
        · rw [hage]; exact h7
        · rw [hcnt, hz.2]; decide
      · rw [if_neg hz] at hage
        rw [hage, hcnt]
        by_cases hm : 0 < (optionLocals p options).maxAge
        · exact Or.inl ⟨hm, fun hc => hnot ⟨hm, hc⟩⟩
        · refine Or.inr ⟨hm, ?_⟩
          have hm0 : (optionLocals p options).maxAge = 0 := by omega
          rcases Nat.eq_zero_or_pos (optionLocals p options).rotationCount with h0 | h0
          · exact absurd ⟨hm0, h0⟩ hz
          · exact h0
    · intro h1 h2
      have hz : (optionLocals p options).maxAge = 0 ∧ (optionLocals p options).rotationCount = 0 :=
        ⟨by omega, by omega⟩
      rw [if_pos hz] at hage
      exact hage
    · intro h1
      have hz : ¬ ((optionLocals p options).maxAge = 0 ∧ (optionLocals p options).rotationCount = 0) := by
        intro h
        omega
      rw [if_neg hz] at hage
      exact hage
  · intro d hd
    have hloc : optionLocals p (options ++ [Opt.maxAge d]) = optionLocals p (options ++ [Opt.maxAge 0]) := by
      simp [optionLocals, List.foldl_append, applyOpt, hd]
    simp only [New, hloc]

/-! ## `GenerateFn` -/

theorem GenerateFnBase_loc (now : Time) (d : Int) :
    (GenerateFnBase now d).Location = Location.utc := by
  unfold GenerateFnBase
  by_cases hl : now.Location = Location.utc
  · simp only [hl, ne_eq, not_true_eq_false, if_false]
    unfold Time.Truncate
    split
    · exact hl
    · exact hl
  · simp only [ne_eq, hl, not_false_eq_true, if_true]
    unfold Time.Truncate Date Time.Location
    split <;> rfl


/-! ## Writing through a handle -/

theorem put_paths_of_find (sys : Sys) (p : String) (n : Node) (h : sys.find p ≠ none) :
    (sys.put p n).paths = sys.paths := by
  unfold Sys.put
  rw [if_neg h]
  simp only [Sys.paths, List.map_map]
  apply List.map_congr_left
  intro e _
  by_cases he : e.1 = p <;> simp [he]

theorem find_put_self (sys : Sys) (p : String) (n : Node) (hp : p ≠ "") :
    (sys.put p n).find p = some n := by
  unfold Sys.put
  by_cases h : sys.find p = none
  · rw [if_pos h]
    unfold Sys.find at h ⊢
    rw [if_neg hp] at h ⊢
    cases hf : sys.nodes.find? (fun e => decide (e.1 = p)) with
    | some e => simp [hf] at h
    | none => simp [List.find?_append, hf]
  · rw [if_neg h]
    unfold Sys.find at h ⊢
    rw [if_neg hp] at h ⊢
    simp only
    have key : ∀ l : List (String × Node), l.find? (fun e => decide (e.1 = p)) ≠ none →
        (l.map (fun e => if e.1 = p then (p, n) else e)).find? (fun e => decide (e.1 = p))
          = some (p, n) := by
      intro l
      induction l with
      | nil => intro hl; simp at hl
      | cons a t ih =>
        intro hl
        by_cases ha : a.1 = p
        · simp [List.find?_cons, ha]
        · simp only [List.map_cons, ha, if_false, List.find?_cons, decide_False]
          apply ih
          simpa [List.find?_cons, ha] using hl
    cases hf : sys.nodes.find? (fun e => decide (e.1 = p)) with
    | none => simp [hf] at h
    | some e => rw [key sys.nodes (by simp [hf])]

theorem put_frame (sys : Sys) (p : String) (n : Node) :
    (sys.put p n).events = sys.events ∧ (sys.put p n).unlinkQueue = sys.unlinkQueue ∧
    (sys.put p n).nextFd = sys.nextFd ∧ (sys.put p n).clock = sys.clock := by
  unfold Sys.put
  split <;> simp

theorem FileWrite_some (sys : Sys) (fh : Handle) (p : List Nat) :
    (FileWrite sys (some fh) p).1 = p.length ∧ (FileWrite sys (some fh) p).2.1 = none ∧
    (FileWrite sys (some fh) p).2.2.paths = sys.paths ∧
    (FileWrite sys (some fh) p).2.2.events = sys.events ∧
    (FileWrite sys (some fh) p).2.2.unlinkQueue = sys.unlinkQueue ∧
    (FileWrite sys (some fh) p).2.2.nextFd = sys.nextFd := by
  cases hf : sys.find fh.path with
  | none => simp [FileWrite, hf]
  | some n =>
    cases n with
    | file c m =>
      simp only [FileWrite, hf, true_and]
      exact ⟨put_paths_of_find sys _ _ (by simp [hf]), (put_frame sys _ _).1,
        (put_frame sys _ _).2.1, (put_frame sys _ _).2.2.1⟩
    | symlink t m => simp [FileWrite, hf]

theorem FileWrite_content (sys : Sys) (fh : Handle) (p c : List Nat) (m : Int)
    (hf : sys.find fh.path = some (Node.file c m)) :
    (FileWrite sys (some fh) p).2.2.find fh.path = some (Node.file (c ++ p) sys.clock) ∧
    (FileWrite sys (some fh) p).2.2.clock = sys.clock := by
  have hp : fh.path ≠ "" := by
    intro h
    simp [Sys.find, h] at hf
  simp only [FileWrite, hf]
  exact ⟨find_put_self sys _ _ hp, (put_frame sys _ _).2.2.2⟩

/-! ## The rotation decision -/

theorem comparationKeys_no_period (L : Lib) (rl : RotateLogs) (now : Time)
    (h : rl.rotationPeriod = "") :
    comparationKeys L rl now =
      (GenerateFn L rl.filenamePattern now rl.rotationTime,
       GenerateFn L rl.rotationPattern now rl.rotationTime) := by
  simp [comparationKeys, h]

theorem sizeRotation_of_below (L : Lib) (rl : RotateLogs) (sys : Sys)
    (h : belowMaxSize L rl sys = true) : sizeRotation L rl sys = false := by
  unfold belowMaxSize at h
  unfold sizeRotation
  cases hs : Stat L sys rl.curFn with
  | none => rfl
  | some fi =>
    simp only [hs, Bool.or_eq_true, decide_eq_true_eq] at h
    simp only [Bool.and_eq_false_imp, decide_eq_true_eq, decide_eq_false_iff_not]
    intro h1
    omega

theorem pickName_ne_reuse (L : Lib) (sys : Sys) (prev f : String) (g : Nat) (b : Bool) :
    pickName L sys prev f g b ≠ Choice.reuse := by
  unfold pickName
  cases b
  · simp
  · simp only [if_true]
    cases probe L sys f (sys.nodes.length + 1) g <;> simp

theorem chooseTarget_reuse_iff (L : Lib) (rl : RotateLogs) (sys : Sys) (now : Time) (useGen : Bool) :
    chooseTarget L rl sys now useGen = Choice.reuse ↔
      comparationKeys L rl now = (rl.curBaseFn, rl.curBaseRn) ∧ useGen = false ∧
        sizeRotation L rl sys = false := by
  unfold chooseTarget
  simp only
  by_cases hk : (comparationKeys L rl now).1 ≠ rl.curBaseFn ∨
      (comparationKeys L rl now).2 ≠ rl.curBaseRn
  · rw [if_pos hk]
    constructor
    · intro h
      exact absurd h (pickName_ne_reuse _ _ _ _ _ _)
    · rintro ⟨h, _, _⟩
      rw [h] at hk
      simp at hk
  · rw [if_neg hk]
    have hk2 : comparationKeys L rl now = (rl.curBaseFn, rl.curBaseRn) := by
      simp only [ne_eq, not_or, not_not] at hk
      exact Prod.ext hk.1 hk.2
    cases useGen <;> cases hs : sizeRotation L rl sys <;>
      simp [hk2, pickName_ne_reuse]

theorem pickName_forced (L : Lib) (sys : Sys) (prev f : String) (g : Nat) :
    ∃ k, g ≤ k ∧ pickName L sys prev f g true = Choice.target sys prev (genName f k) k ∧
      Stat L sys (genName f k) = none ∧
      ∀ j, g ≤ j → j < k → Stat L sys (genName f j) ≠ none := by
  obtain ⟨⟨name, k⟩, hr⟩ := probe_total L sys f g
  obtain ⟨h1, h2, h3, h4⟩ := probe_spec L sys f _ g name k hr
  refine ⟨k, h2, ?_, h3, h4⟩
  simp [pickName, hr, h1]

theorem adoptTarget_ok (L : Lib) (rl : RotateLogs) (sys : Sys) (now : Time) (bail : Bool)
    (baseFn baseRn prev f : String) (g : Nat) (out : Option Handle)
    (h : (adoptTarget L rl sys now bail baseFn baseRn prev f g).val = .ok out) :
    ∃ fh sys1, CreateFile L sys f = .ok (fh, sys1) ∧ out = some fh ∧
      (adoptTarget L rl sys now bail baseFn baseRn prev f g).rl = adopted rl fh baseFn baseRn f g := by
  unfold adoptTarget at h ⊢
  cases hc : CreateFile L sys f with
  | error e => simp [hc] at h
  | ok r =>
    obtain ⟨fh, sys1⟩ := r
    simp only [hc] at h ⊢
    cases hr : rotateNolock L rl sys1 now f with
    | mk res sys2 =>
      simp only [hr] at h ⊢
      cases res with
      | error e =>
        cases bail
        · simp only [Bool.false_eq_true, if_false, Except.ok.injEq] at h ⊢
          exact ⟨fh, sys1, rfl, h.symm, rfl⟩
        · simp at h
      | ok u =>
        simp only [Except.ok.injEq] at h ⊢
        exact ⟨fh, sys1, rfl, h.symm, rfl⟩

theorem adoptTarget_error (L : Lib) (rl : RotateLogs) (sys : Sys) (now : Time) (bail : Bool)
    (baseFn baseRn prev f : String) (g : Nat) (e : String)
    (h : (adoptTarget L rl sys now bail baseFn baseRn prev f g).val = .error e) :
    (adoptTarget L rl sys now bail baseFn baseRn prev f g).rl = rl := by
  unfold adoptTarget at h ⊢
  cases hc : CreateFile L sys f with
  | error e => simp [hc]
  | ok r =>
    obtain ⟨fh, sys1⟩ := r
    simp only [hc] at h ⊢
    cases hr : rotateNolock L rl sys1 now f with
    | mk res sys2 =>
      simp only [hr] at h ⊢
      cases res with
      | error e =>
        cases bail
        · simp at h
        · simp
      | ok u => simp at h


theorem getWriterNolock_ok_keys (L : Lib) (rl : RotateLogs) (sys : Sys) (now : Time)
    (bail useGen : Bool) (fh : Handle) (hper : rl.rotationPeriod = "")
    (hok : (getWriterNolock L rl sys now bail useGen).val = .ok (some fh)) :
    (getWriterNolock L rl sys now bail useGen).rl.outFh = some fh ∧
    (getWriterNolock L rl sys now bail useGen).rl.curBaseFn
      = GenerateFn L rl.filenamePattern now rl.rotationTime ∧
    (getWriterNolock L rl sys now bail useGen).rl.curBaseRn
      = GenerateFn L rl.rotationPattern now rl.rotationTime ∧
    (getWriterNolock L rl sys now bail useGen).rl.rotationPeriod = "" ∧
    (getWriterNolock L rl sys now bail useGen).rl.filenamePattern = rl.filenamePattern ∧
    (getWriterNolock L rl sys now bail useGen).rl.rotationPattern = rl.rotationPattern ∧
    (getWriterNolock L rl sys now bail useGen).rl.rotationTime = rl.rotationTime := by
  unfold getWriterNolock at hok ⊢
  cases hc : chooseTarget L rl sys now useGen with
  | reuse =>
    simp only [hc] at hok ⊢
    obtain ⟨hk, _, _⟩ := (chooseTarget_reuse_iff L rl sys now useGen).mp hc
    rw [comparationKeys_no_period L rl now hper] at hk
    simp only [Prod.mk.injEq] at hk
    simp only [Except.ok.injEq] at hok
    simp [hok, hk.1, hk.2, hper]
  | diverge => simp [hc] at hok
  | target sys1 prev f g =>
    simp only [hc] at hok ⊢
    obtain ⟨fh2, sys2, _, hout, hrl⟩ := adoptTarget_ok L rl sys1 now bail _ _ prev f g _ hok
    rw [hrl]
    simp only [Option.some.injEq] at hout
    subst hout
    simp [adopted, hper]

theorem Write_reuse (L : Lib) (rl : RotateLogs) (sys : Sys) (t : Time) (p : List Nat) (fh : Handle)
    (hper : rl.rotationPeriod = "")
    (hFn : rl.curBaseFn = GenerateFn L rl.filenamePattern t rl.rotationTime)
    (hRn : rl.curBaseRn = GenerateFn L rl.rotationPattern t rl.rotationTime)
    (hfh : rl.outFh = some fh) (hsize : belowMaxSize L rl sys = true) :
    Write L rl sys t p =
      { n := p.length, err := none, rl := rl, sys := (FileWrite sys (some fh) p).2.2 } := by
  have hc : chooseTarget L rl sys t false = Choice.reuse := by
    rw [chooseTarget_reuse_iff, comparationKeys_no_period L rl t hper, ← hFn, ← hRn]
    exact ⟨rfl, rfl, sizeRotation_of_below L rl sys hsize⟩
  have h := FileWrite_some sys fh p
  simp only [Write, getWriterNolock, hc, hfh, h.1, h.2.1]

/-- C1. With no fixed rotation period: in the writer state `rl` left by a
successful `Write` or `Rotate` at instant `t0`, every `Write` at an instant
that truncates like `t0`, with the current file below the max size (or the max
size disabled), returns the byte count without error, leaves the writer state
(`curFn`, base filename, rotation key, generation, handle) unchanged, appends
the bytes through the existing handle, creates no file and delivers no event;
and so does every run of such writes, whose bytes land in the file in order. -/
theorem same_bucket_writes_reuse_handle (L : Lib) (rlp : RotateLogs) (sysp : Sys) (t0 : Time)
    (bail useGen : Bool) (fh : Handle) (rl : RotateLogs)
    (hper : rlp.rotationPeriod = "")
    (hprev : (getWriterNolock L rlp sysp t0 bail useGen).val = .ok (some fh))
    (hrl : rl = (getWriterNolock L rlp sysp t0 bail useGen).rl)
    (sys : Sys) (ws : List (Time × List Nat)) (hquiet : quietWrites L rl t0 sys ws = true) :
    rl.outFh = some fh ∧
    (∀ (s : Sys) (t : Time) (p : List Nat),
        GenerateFnBase t rl.rotationTime = GenerateFnBase t0 rl.rotationTime →
        belowMaxSize L rl s = true →
        Write L rl s t p =
          { n := p.length, err := none, rl := rl, sys := (FileWrite s (some fh) p).2.2 }) ∧
    (WriteSeq L rl sys ws).1 = rl ∧
    (WriteSeq L rl sys ws).2.2 = ws.map (fun w => (w.2.length, none)) ∧
    (WriteSeq L rl sys ws).2.1.paths = sys.paths ∧
    (WriteSeq L rl sys ws).2.1.events = sys.events ∧
    (WriteSeq L rl sys ws).2.1.unlinkQueue = sys.unlinkQueue ∧
    (WriteSeq L rl sys ws).2.1.nextFd = sys.nextFd ∧
    (∀ c m, sys.find fh.path = some (Node.file c m) →
        ∃ m2, (WriteSeq L rl sys ws).2.1.find fh.path
          = some (Node.file (c ++ (ws.map Prod.snd).flatten) m2)) := by
  obtain ⟨hfh, hFn, hRn, hper1, hfp, hrp, hrt⟩ :=
    getWriterNolock_ok_keys L rlp sysp t0 bail useGen fh hper hprev
  rw [← hrl] at hfh hFn hRn hper1 hfp hrp hrt
  have hstep : ∀ (s : Sys) (t : Time) (p : List Nat),
      GenerateFnBase t rl.rotationTime = GenerateFnBase t0 rl.rotationTime →
      belowMaxSize L rl s = true →
      Write L rl s t p =
        { n := p.length, err := none, rl := rl, sys := (FileWrite s (some fh) p).2.2 } := by
    intro s t p hb hs
    apply Write_reuse L rl s t p fh hper1 _ _ hfh hs
    · rw [hFn, ← hfp, ← hrt]
      simp only [GenerateFn, hb]
    · rw [hRn, ← hrp, ← hrt]
      simp only [GenerateFn, hb]
  refine ⟨hfh, hstep, ?_⟩
  induction ws generalizing sys with
  | nil =>
    refine ⟨rfl, rfl, rfl, rfl, rfl, rfl, ?_⟩
    intro c m hf
    exact ⟨m, by simpa [WriteSeq] using hf⟩
  | cons w rest ih =>
    simp only [quietWrites, Bool.and_eq_true, decide_eq_true_eq] at hquiet
    obtain ⟨⟨hb, hs⟩, hq⟩ := hquiet
    have hw := hstep sys w.1 w.2 hb hs
    rw [hw] at hq
    obtain ⟨i1, i2, i3, i4, i5, i6, i7⟩ := ih _ hq
    have hF := FileWrite_some sys fh w.2
    simp only [WriteSeq, hw, List.map_cons, List.flatten_cons]
    refine ⟨i1, by rw [i2], by rw [i3, hF.2.2.1], by rw [i4, hF.2.2.2.1],
      by rw [i5, hF.2.2.2.2.1], by rw [i6, hF.2.2.2.2.2], ?_⟩
    intro c m hf
    obtain ⟨m2, hm2⟩ := i7 (c ++ w.2) sys.clock (FileWrite_content sys fh w.2 c m hf).1
    exact ⟨m2, by rw [hm2, List.append_assoc]⟩


theorem chooseTarget_same_bucket (L : Lib) (rl : RotateLogs) (sys : Sys) (now : Time)
    (useGen : Bool) (hkeys : comparationKeys L rl now = (rl.curBaseFn, rl.curBaseRn))
    (hforce : useGen = true ∨ sizeRotation L rl sys = true) :
    chooseTarget L rl sys now useGen =
      pickName L sys rl.curFn (GenerateFn L rl.filenamePattern now rl.rotationTime)
        (rl.generation + 1) true := by
  unfold chooseTarget
  simp only [hkeys, ne_eq, not_true_eq_false, or_self, if_false]
  rcases hforce with h | h <;> simp [h]

theorem chooseTarget_crossing (L : Lib) (rl : RotateLogs) (sys : Sys) (now : Time)
    (useGen : Bool) (hcross : comparationKeys L rl now ≠ (rl.curBaseFn, rl.curBaseRn)) :
    chooseTarget L rl sys now useGen =
      pickName L (compressOutgoing L rl sys).1 (compressOutgoing L rl sys).2
        (GenerateFn L rl.filenamePattern now rl.rotationTime) 0
        (sizeRotation L rl sys || rl.forceNewFile) := by
  unfold chooseTarget
  have : (comparationKeys L rl now).1 ≠ rl.curBaseFn ∨ (comparationKeys L rl now).2 ≠ rl.curBaseRn := by
    by_contra hn
    simp only [ne_eq, not_or, not_not] at hn
    exact hcross (Prod.ext hn.1 hn.2)
  simp only [this, if_true]

theorem probe_hit (L : Lib) (sys : Sys) (f : String) (n g : Nat)
    (h : Stat L sys (genName f g) = none) :
    probe L sys f (n + 1) g = some (genName f g, g) := by
  simp [probe, h]

theorem genName_pos (f : String) (k : Nat) (h : 0 < k) :
    genName f k = f ++ "." ++ String.mk (itoa k) := by
  have : k ≠ 0 := by omega
  simp [genName, this]

theorem Stat_empty (L : Lib) (sys : Sys) : Stat L sys "" = none := by
  simp [Stat, follow, Sys.find]

theorem New_fresh (L : Lib) (p : String) (options : List Opt) (rl : RotateLogs)
    (h : New L p options = .ok rl) :
    rl.curFn = "" ∧ rl.curBaseFn = "" ∧ rl.curBaseRn = "" ∧ rl.generation = 0 ∧ rl.outFh = none := by
  unfold New at h
  split at h
  · cases h
  · split at h
    · cases h
    · simp only at h
      split at h
      · cases h
      · simp only [Except.ok.injEq] at h
        subst h
        exact ⟨rfl, rfl, rfl, rfl, rfl⟩

theorem getWriterNolock_target (L : Lib) (rl : RotateLogs) (sys : Sys) (now : Time)
    (bail useGen : Bool) (sys1 : Sys) (prev f : String) (g : Nat)
    (h : chooseTarget L rl sys now useGen = Choice.target sys1 prev f g) :
    getWriterNolock L rl sys now bail useGen =
      adoptTarget L rl sys1 now bail (GenerateFn L rl.filenamePattern now rl.rotationTime)
        (GenerateFn L rl.rotationPattern now rl.rotationTime) prev f g := by
  simp only [getWriterNolock, h]

theorem Rotate_ok (L : Lib) (rl : RotateLogs) (sys : Sys) (now : Time)
    (h : (Rotate L rl sys now).err = none) :
    ∃ out, (getWriterNolock L rl sys now true true).val = .ok out ∧
      (Rotate L rl sys now).rl = (getWriterNolock L rl sys now true true).rl ∧
      (Rotate L rl sys now).sys = (getWriterNolock L rl sys now true true).sys := by
  cases hv : (getWriterNolock L rl sys now true true).val with
  | error e => simp [Rotate, hv] at h
  | ok out => exact ⟨out, rfl, by simp [Rotate, hv], by simp [Rotate, hv]⟩


/-- Without a fixed period, a call at the instant of the last successful call
is within the bucket that call left: the comparison keys equal the stored keys. -/
theorem same_instant_same_bucket (L : Lib) (rl : RotateLogs) (sys : Sys) (now : Time)
    (bail useGen : Bool) (fh : Handle) (hper : rl.rotationPeriod = "")
    (hok : (getWriterNolock L rl sys now bail useGen).val = .ok (some fh)) :
    comparationKeys L (getWriterNolock L rl sys now bail useGen).rl now =
      ((getWriterNolock L rl sys now bail useGen).rl.curBaseFn,
       (getWriterNolock L rl sys now bail useGen).rl.curBaseRn) := by
  obtain ⟨_, h2, h3, h4, h5, h6, h7⟩ := getWriterNolock_ok_keys L rl sys now bail useGen fh hper hok
  rw [comparationKeys_no_period L _ now h4, h2, h3, h5, h6, h7]

/-- Forced rotation where the code's bucket test passes. (a) When the
comparison keys equal the stored keys and the pattern's name for `now` is the
stored base name, and a new file is
forced by `Rotate()` (`useGenerationalNames`) or by the size of the current
file, the probing loop terminates with the least `k` above the previous
generation for which `base.k` is not found by `os.Stat`; the call then proceeds
to create and adopt `base.k`, and whenever it succeeds the new current filename
is `base.k`, the generation is `k`, and the name differs from the previous one.
(b) On a fresh writer, with `base` absent, two successive successful `Rotate()`
calls at the same instant, the second within the bucket opened by the first,
leave the current filename `base` and then `base.1` (`base.1` being absent at
the second probe). Without a fixed period the second call is always within
that bucket (`same_instant_same_bucket`). -/
theorem forced_rotation_takes_next_generation :
    (∀ (L : Lib) (rl : RotateLogs) (sys : Sys) (now : Time) (bail useGen : Bool),
      comparationKeys L rl now = (rl.curBaseFn, rl.curBaseRn) →
      GenerateFn L rl.filenamePattern now rl.rotationTime = rl.curBaseFn →
      rl.curFn = genName rl.curBaseFn rl.generation →
      (useGen = true ∨ sizeRotation L rl sys = true) →
      ∃ k, rl.generation < k ∧
        Stat L sys (rl.curBaseFn ++ "." ++ String.mk (itoa k)) = none ∧
        (∀ j, rl.generation < j → j < k →
          Stat L sys (rl.curBaseFn ++ "." ++ String.mk (itoa j)) ≠ none) ∧
        rl.curBaseFn ++ "." ++ String.mk (itoa k) ≠ rl.curFn ∧
        chooseTarget L rl sys now useGen =
          Choice.target sys rl.curFn (rl.curBaseFn ++ "." ++ String.mk (itoa k)) k ∧
        getWriterNolock L rl sys now bail useGen =
          adoptTarget L rl sys now bail rl.curBaseFn
            (GenerateFn L rl.rotationPattern now rl.rotationTime) rl.curFn
            (rl.curBaseFn ++ "." ++ String.mk (itoa k)) k ∧
        (∀ out, (getWriterNolock L rl sys now bail useGen).val = .ok out →
          (getWriterNolock L rl sys now bail useGen).rl.curFn
            = rl.curBaseFn ++ "." ++ String.mk (itoa k) ∧
          (getWriterNolock L rl sys now bail useGen).rl.generation = k ∧
          (getWriterNolock L rl sys now bail useGen).rl.curFn ≠ rl.curFn ∧
          (getWriterNolock L rl sys now bail useGen).rl.outFh = out ∧ out ≠ none)) ∧
    (∀ (L : Lib) (p : String) (options : List Opt) (rl : RotateLogs) (sys : Sys) (now : Time),
      New L p options = .ok rl →
      comparationKeys L rl now ≠ ("", "") →
      Stat L sys (GenerateFn L rl.filenamePattern now rl.rotationTime) = none →
      (Rotate L rl sys now).err = none →
      comparationKeys L (Rotate L rl sys now).rl now
        = ((Rotate L rl sys now).rl.curBaseFn, (Rotate L rl sys now).rl.curBaseRn) →
      Stat L (Rotate L rl sys now).sys
        (GenerateFn L rl.filenamePattern now rl.rotationTime ++ ".1") = none →
      (Rotate L (Rotate L rl sys now).rl (Rotate L rl sys now).sys now).err = none →
      (Rotate L rl sys now).rl.curFn = GenerateFn L rl.filenamePattern now rl.rotationTime ∧
      (Rotate L (Rotate L rl sys now).rl (Rotate L rl sys now).sys now).rl.curFn
        = GenerateFn L rl.filenamePattern now rl.rotationTime ++ ".1") := by
  constructor
  · intro L rl sys now bail useGen hkeys hbase hinv hforce
    obtain ⟨k, hk, hpick, hnone, hall⟩ :=
      pickName_forced L sys rl.curFn rl.curBaseFn (rl.generation + 1)
    have hk0 : 0 < k := by omega
    have hname := genName_pos rl.curBaseFn k hk0
    have hch : chooseTarget L rl sys now useGen =
        Choice.target sys rl.curFn (rl.curBaseFn ++ "." ++ String.mk (itoa k)) k := by
      rw [chooseTarget_same_bucket L rl sys now useGen hkeys hforce, hbase, hpick, hname]
    have hne : rl.curBaseFn ++ "." ++ String.mk (itoa k) ≠ rl.curFn := by
      rw [← hname, hinv]
      intro h
      have := genName_injective rl.curBaseFn h
      omega
    have hget := getWriterNolock_target L rl sys now bail useGen sys rl.curFn _ k hch
    rw [hbase] at hget
    refine ⟨k, by omega, by rw [← hname]; exact hnone, ?_, hne, hch, hget, ?_⟩
    · intro j hj hjk
      rw [← genName_pos rl.curBaseFn j (by omega)]
      exact hall j (by omega) hjk
    · intro out hout
      rw [hget] at hout ⊢
      obtain ⟨fh, sys1, _, ho, hrl⟩ := adoptTarget_ok L rl sys now bail _ _ _ _ k out hout
      rw [hrl]
      subst ho
      exact ⟨rfl, rfl, hne, rfl, by simp⟩
  · intro L p options rl sys now hnew hrn hbase herr1 hkeys2 hbase1 herr2
    obtain ⟨hcur, hbf, hbr, hgen, _⟩ := New_fresh L p options rl hnew
    -- first call: a boundary crossing from the empty keys
    have hcross : comparationKeys L rl now ≠ (rl.curBaseFn, rl.curBaseRn) := by
      rw [hbf, hbr]
      exact hrn
    have hsz : sizeRotation L rl sys = false := by
      simp [sizeRotation, hcur, Stat_empty]
    have hco : compressOutgoing L rl sys = (sys, "") := by
      simp [compressOutgoing, hcur]
    have hch1 : chooseTarget L rl sys now true =
        Choice.target sys "" (GenerateFn L rl.filenamePattern now rl.rotationTime) 0 := by
      rw [chooseTarget_crossing L rl sys now true hcross, hco, hsz]
      cases hf : rl.forceNewFile
      · simp [pickName]
      · have := probe_hit L sys (GenerateFn L rl.filenamePattern now rl.rotationTime)
          sys.nodes.length 0 (by rw [genName_zero]; exact hbase)
        simp [pickName, this, genName_zero]
    obtain ⟨out1, hv1, hr1, hs1⟩ := Rotate_ok L rl sys now herr1
    rw [getWriterNolock_target L rl sys now true true sys "" _ 0 hch1] at hv1 hr1 hs1
    obtain ⟨fh1, sysa, _, _, hrl1⟩ := adoptTarget_ok L rl sys now true _ _ _ _ 0 out1 hv1
    rw [hrl1] at hr1
    -- second call: same bucket, forced by Rotate
    have hch2 : chooseTarget L (Rotate L rl sys now).rl (Rotate L rl sys now).sys now true =
        Choice.target (Rotate L rl sys now).sys (GenerateFn L rl.filenamePattern now rl.rotationTime)
          (GenerateFn L rl.filenamePattern now rl.rotationTime ++ ".1") 1 := by
      rw [chooseTarget_same_bucket L _ _ now true hkeys2 (Or.inl rfl)]
      have hg1 : genName (GenerateFn L rl.filenamePattern now rl.rotationTime) 1
          = GenerateFn L rl.filenamePattern now rl.rotationTime ++ ".1" := by
        rw [genName_pos _ 1 (by decide)]
        have : String.mk (itoa 1) = "1" := by decide
        rw [this, String.append_assoc]
        rfl
      have := probe_hit L (Rotate L rl sys now).sys
        (GenerateFn L rl.filenamePattern now rl.rotationTime)
        (Rotate L rl sys now).sys.nodes.length 1 (by rw [hg1]; exact hbase1)
      rw [hr1]
      simp only [adopted, pickName, if_true]
      simp only [Nat.zero_add, this, hg1]
    obtain ⟨out2, hv2, hr2, _⟩ := Rotate_ok L _ _ now herr2
    rw [getWriterNolock_target L _ _ now true true _ _ _ 1 hch2] at hv2 hr2
    obtain ⟨fh2, sysb, _, _, hrl2⟩ := adoptTarget_ok L _ _ now true _ _ _ _ 1 out2 hv2
    rw [hrl2] at hr2
    constructor
    · rw [hr1]
      rfl
    · rw [hr2]
      rfl


theorem Write_ok (L : Lib) (rl : RotateLogs) (sys : Sys) (now : Time) (p : List Nat)
    (h : (Write L rl sys now p).err = none) :
    ∃ out, (getWriterNolock L rl sys now false false).val = .ok out ∧
      (Write L rl sys now p).rl = (getWriterNolock L rl sys now false false).rl := by
  cases hv : (getWriterNolock L rl sys now false false).val with
  | error e => simp [Write, hv] at h
  | ok out => exact ⟨out, rfl, by simp [Write, hv]⟩

/-- Without a fixed period, in the state left by a successful call at `t0`,
the code's boundary test at `t` is met exactly when the pattern's name or the
rotation key of the two truncated instants differ; the two instants then lie in
different interval buckets. -/
theorem crossing_detected_iff (L : Lib) (rlp : RotateLogs) (sysp : Sys) (t0 t : Time)
    (bail useGen : Bool) (fh : Handle) (rl : RotateLogs) (hper : rlp.rotationPeriod = "")
    (hprev : (getWriterNolock L rlp sysp t0 bail useGen).val = .ok (some fh))
    (hrl : rl = (getWriterNolock L rlp sysp t0 bail useGen).rl) :
    (comparationKeys L rl t ≠ (rl.curBaseFn, rl.curBaseRn) ↔
      (GenerateFn L rl.filenamePattern t rl.rotationTime
          ≠ GenerateFn L rl.filenamePattern t0 rl.rotationTime ∨
       GenerateFn L rl.rotationPattern t rl.rotationTime
          ≠ GenerateFn L rl.rotationPattern t0 rl.rotationTime)) ∧
    (comparationKeys L rl t ≠ (rl.curBaseFn, rl.curBaseRn) →
      GenerateFnBase t rl.rotationTime ≠ GenerateFnBase t0 rl.rotationTime) := by
  obtain ⟨_, hFn, hRn, hper1, hfp, hrp, hrt⟩ :=
    getWriterNolock_ok_keys L rlp sysp t0 bail useGen fh hper hprev
  rw [← hrl] at hFn hRn hper1 hfp hrp hrt
  have hiff : comparationKeys L rl t ≠ (rl.curBaseFn, rl.curBaseRn) ↔
      (GenerateFn L rl.filenamePattern t rl.rotationTime
          ≠ GenerateFn L rl.filenamePattern t0 rl.rotationTime ∨
       GenerateFn L rl.rotationPattern t rl.rotationTime
          ≠ GenerateFn L rl.rotationPattern t0 rl.rotationTime) := by
    rw [comparationKeys_no_period L rl t hper1, hFn, hRn, ← hfp, ← hrp, ← hrt]
    simp only [ne_eq, Prod.mk.injEq, not_and_or]
  refine ⟨hiff, fun hc hb => ?_⟩
  rcases hiff.mp hc with h | h
  · exact h (by simp only [GenerateFn, hb])
  · exact h (by simp only [GenerateFn, hb])

/-- C2 (amended). When a `Write` succeeds at an instant whose comparison keys
differ from the stored keys (the boundary test of the code): if no new file is
forced (no size trigger, force-new-file off) the current filename becomes the
pattern's name for the new bucket, which differs from the previous current
filename provided it is another string; if a new file is forced the current
filename becomes `base.k` (`base` itself for `k = 0`) for the least `k` whose
name `os.Stat` does not find once the outgoing file has been compressed, which
differs from the previous current filename provided the previous file still
exists at that point. -/
theorem boundary_crossing_filename (L : Lib) (rl : RotateLogs) (sys : Sys) (now : Time)
    (p : List Nat)
    (hcross : comparationKeys L rl now ≠ (rl.curBaseFn, rl.curBaseRn))
    (hok : (Write L rl sys now p).err = none) :
    (sizeRotation L rl sys = false → rl.forceNewFile = false →
      (Write L rl sys now p).rl.curFn = GenerateFn L rl.filenamePattern now rl.rotationTime ∧
      (Write L rl sys now p).rl.generation = 0 ∧
      (GenerateFn L rl.filenamePattern now rl.rotationTime ≠ rl.curFn →
        (Write L rl sys now p).rl.curFn ≠ rl.curFn)) ∧
    ((sizeRotation L rl sys = true ∨ rl.forceNewFile = true) →
      ∃ k, (Write L rl sys now p).rl.curFn
            = genName (GenerateFn L rl.filenamePattern now rl.rotationTime) k ∧
          (Write L rl sys now p).rl.generation = k ∧
          Stat L (compressOutgoing L rl sys).1
            (genName (GenerateFn L rl.filenamePattern now rl.rotationTime) k) = none ∧
          (∀ j, j < k → Stat L (compressOutgoing L rl sys).1
            (genName (GenerateFn L rl.filenamePattern now rl.rotationTime) j) ≠ none) ∧
          (Stat L (compressOutgoing L rl sys).1 rl.curFn ≠ none →
            (Write L rl sys now p).rl.curFn ≠ rl.curFn)) := by
  obtain ⟨out, hv, hrl⟩ := Write_ok L rl sys now p hok
  have hch := chooseTarget_crossing L rl sys now false hcross
  constructor
  · intro h1 h2
    rw [h1, h2] at hch
    simp only [Bool.or_self, pickName, Bool.false_eq_true, if_false] at hch
    rw [getWriterNolock_target L rl sys now false false _ _ _ 0 hch] at hv hrl
    obtain ⟨fh, sys1, _, _, hrl2⟩ := adoptTarget_ok L rl _ now false _ _ _ _ 0 out hv
    rw [hrl2] at hrl
    have hcur : (Write L rl sys now p).rl.curFn
        = GenerateFn L rl.filenamePattern now rl.rotationTime := by
      rw [hrl]; rfl
    have hgen : (Write L rl sys now p).rl.generation = 0 := by
      rw [hrl]; rfl
    exact ⟨hcur, hgen, fun hne => by rw [hcur]; exact hne⟩
  · intro hforced
    have hb : (sizeRotation L rl sys || rl.forceNewFile) = true := by
      rcases hforced with h | h <;> simp [h]
    rw [hb] at hch
    obtain ⟨k, _, hpick, hnone, hall⟩ := pickName_forced L (compressOutgoing L rl sys).1
      (compressOutgoing L rl sys).2 (GenerateFn L rl.filenamePattern now rl.rotationTime) 0
    rw [hpick] at hch
    rw [getWriterNolock_target L rl sys now false false _ _ _ k hch] at hv hrl
    obtain ⟨fh, sys1, _, _, hrl2⟩ := adoptTarget_ok L rl _ now false _ _ _ _ k out hv
    rw [hrl2] at hrl
    have hcur : (Write L rl sys now p).rl.curFn
        = genName (GenerateFn L rl.filenamePattern now rl.rotationTime) k := by
      rw [hrl]; rfl
    have hgen : (Write L rl sys now p).rl.generation = k := by
      rw [hrl]; rfl
    refine ⟨k, hcur, hgen, hnone, fun j hj => hall j (Nat.zero_le j) hj, ?_⟩
    intro hex heq
    rw [hcur] at heq
    rw [heq] at hnone
    exact hex hnone

theorem rotateNolock_lock_exists (L : Lib) (rl : RotateLogs) (sys : Sys) (now : Time)
    (f : String) (h : sys.find (f ++ "_lock") ≠ none) :
    (rotateNolock L rl sys now f).1 = .error ("open " ++ (f ++ "_lock") ++ ": file exists") := by
  simp [rotateNolock, OpenExcl, h]

/-- C7 (amended). For `Write`: whenever a rotation is triggered, creating the
new file succeeds and the locked side-effects (`rotateNolock`: lock sentinel,
symlink, retention glob) fail, the call does not fail, returns the byte count,
and the new file becomes current: `outFh`, `curFn`, base filename, rotation key
and generation are adopted. For `Rotate()` the same failure is returned to the
caller as `failed to rotate: ..` and the writer state is left unchanged. -/
theorem write_adopts_despite_rotate_failure (L : Lib) (rl : RotateLogs) (sys : Sys) (now : Time)
    (p : List Nat) (sys1 : Sys) (prev f : String) (g : Nat) (fh : Handle) (sys2 : Sys) (e : String)
    (hch : chooseTarget L rl sys now false = Choice.target sys1 prev f g)
    (hcreate : CreateFile L sys1 f = .ok (fh, sys2))
    (hfail : (rotateNolock L rl sys2 now f).1 = .error e) :
    ((Write L rl sys now p).err = none ∧
     (Write L rl sys now p).n = p.length ∧
     (Write L rl sys now p).rl.outFh = some fh ∧
     (Write L rl sys now p).rl.curFn = f ∧
     (Write L rl sys now p).rl.curBaseFn = GenerateFn L rl.filenamePattern now rl.rotationTime ∧
     (Write L rl sys now p).rl.curBaseRn = GenerateFn L rl.rotationPattern now rl.rotationTime ∧
     (Write L rl sys now p).rl.generation = g) ∧
    (∀ (sysa : Sys) (preva fa : String) (ga : Nat) (fha : Handle) (sysb : Sys) (ea : String),
      chooseTarget L rl sys now true = Choice.target sysa preva fa ga →
      CreateFile L sysa fa = .ok (fha, sysb) →
      (rotateNolock L rl sysb now fa).1 = .error ea →
      (Rotate L rl sys now).err = some ("failed to rotate: " ++ ea) ∧
      (Rotate L rl sys now).rl = rl) := by
  constructor
  · have hget := getWriterNolock_target L rl sys now false false sys1 prev f g hch
    cases hr : rotateNolock L rl sys2 now f with
    | mk res sys3 =>
      rw [hr] at hfail
      simp only at hfail
      subst hfail
      have hF := FileWrite_some
        (notify rl { sys3 with stderr := sys3.stderr ++ ["failed to rotate: " ++ e] } prev f) fh p
      simp only [Write, hget, adoptTarget, hcreate, hr, Bool.false_eq_true, if_false, hF.1, hF.2.1,
        adopted, and_self]
  · intro sysa preva fa ga fha sysb ea hcha hcreatea hfaila
    have hget := getWriterNolock_target L rl sys now true true sysa preva fa ga hcha
    cases hr : rotateNolock L rl sysb now fa with
    | mk res sys3 =>
      rw [hr] at hfaila
      simp only at hfaila
      subst hfaila
      simp only [Rotate, hget, adoptTarget, hcreatea, hr, if_true, and_self]


/-! ## Invariants of the writer state -/

/-- Whatever `chooseTarget` settles on, the file name is the generational name
of the pattern's name for `now` at the chosen generation. -/
theorem chooseTarget_name (L : Lib) (rl : RotateLogs) (sys : Sys) (now : Time) (useGen : Bool)
    (sys1 : Sys) (prev f : String) (g : Nat)
    (h : chooseTarget L rl sys now useGen = Choice.target sys1 prev f g) :
    f = genName (GenerateFn L rl.filenamePattern now rl.rotationTime) g := by
  have hpick : ∀ (s : Sys) (pv : String) (g0 : Nat) (b : Bool),
      pickName L s pv (GenerateFn L rl.filenamePattern now rl.rotationTime) g0 b
        = Choice.target sys1 prev f g →
      (b = false → g0 = 0) →
      f = genName (GenerateFn L rl.filenamePattern now rl.rotationTime) g := by
    intro s pv g0 b hp hb
    cases b with
    | false =>
      simp only [pickName, Bool.false_eq_true, if_false, Choice.target.injEq] at hp
      obtain ⟨_, _, h3, h4⟩ := hp
      rw [← h3, ← h4, hb rfl, genName_zero]
    | true =>
      obtain ⟨k, _, hk, _, _⟩ := pickName_forced L s pv
        (GenerateFn L rl.filenamePattern now rl.rotationTime) g0
      rw [hk] at hp
      simp only [Choice.target.injEq] at hp
      obtain ⟨_, _, h3, h4⟩ := hp
      rw [← h3, ← h4]
  by_cases hk : comparationKeys L rl now = (rl.curBaseFn, rl.curBaseRn)
  · by_cases hforce : useGen = true ∨ sizeRotation L rl sys = true
    · rw [chooseTarget_same_bucket L rl sys now useGen hk hforce] at h
      exact hpick _ _ _ true h (fun hb => by cases hb)
    · have hr : chooseTarget L rl sys now useGen = Choice.reuse := by
        rw [chooseTarget_reuse_iff]
        refine ⟨hk, ?_, ?_⟩
        · cases hu : useGen
          · rfl
          · exact absurd (Or.inl hu) hforce
        · cases hs : sizeRotation L rl sys
          · rfl
          · exact absurd (Or.inr hs) hforce
      rw [hr] at h
      cases h
  · rw [chooseTarget_crossing L rl sys now useGen hk] at h
    exact hpick _ _ 0 _ h (fun _ => rfl)

/-- The invariant `curFn = genName curBaseFn generation` holds for the writer
`New` returns and is kept by every call of `getWriterNolock`, hence by `Write`
and `Rotate`. -/
theorem name_invariant (L : Lib) :
    (∀ p options rl, New L p options = .ok rl → rl.curFn = genName rl.curBaseFn rl.generation) ∧
    (∀ rl sys now bail useGen, rl.curFn = genName rl.curBaseFn rl.generation →
      (getWriterNolock L rl sys now bail useGen).rl.curFn
        = genName (getWriterNolock L rl sys now bail useGen).rl.curBaseFn
            (getWriterNolock L rl sys now bail useGen).rl.generation) := by
  constructor
  · intro p options rl h
    obtain ⟨h1, h2, _, h4, _⟩ := New_fresh L p options rl h
    rw [h1, h2, h4, genName_zero]
  · intro rl sys now bail useGen hinv
    cases hc : chooseTarget L rl sys now useGen with
    | reuse => simpa [getWriterNolock, hc] using hinv
    | diverge => simpa [getWriterNolock, hc] using hinv
    | target sys1 prev f g =>
      have hf := chooseTarget_name L rl sys now useGen sys1 prev f g hc
      rw [getWriterNolock_target L rl sys now bail useGen sys1 prev f g hc]
      cases hv : (adoptTarget L rl sys1 now bail (GenerateFn L rl.filenamePattern now rl.rotationTime)
          (GenerateFn L rl.rotationPattern now rl.rotationTime) prev f g).val with
      | error e =>
        rw [adoptTarget_error L rl sys1 now bail _ _ prev f g e hv]
        exact hinv
      | ok out =>
        obtain ⟨fh, sys2, _, _, hrl⟩ := adoptTarget_ok L rl sys1 now bail _ _ prev f g out hv
        rw [hrl]
        exact hf

/-! ## `Close` followed by `Write` -/

/-- After `Close()`, a `Write` in the bucket of the stored keys (no fixed
period, no size trigger) takes the early return with the nil handle: it writes
nothing and reports `invalid argument`. -/
theorem Write_after_Close_same_bucket (L : Lib) (rl : RotateLogs) (sys : Sys) (t : Time)
    (p : List Nat) (hper : rl.rotationPeriod = "")
    (hFn : rl.curBaseFn = GenerateFn L rl.filenamePattern t rl.rotationTime)
    (hRn : rl.curBaseRn = GenerateFn L rl.rotationPattern t rl.rotationTime)
    (hsize : belowMaxSize L rl sys = true) :
    (Close rl sys).rl.outFh = none ∧
    Write L (Close rl sys).rl (Close rl sys).sys t p =
      { n := 0, err := some "invalid argument", rl := (Close rl sys).rl, sys := sys } := by
  have hclose : (Close rl sys).rl = { rl with outFh := none } ∧ (Close rl sys).sys = sys := by
    unfold Close
    split
    · rename_i h
      refine ⟨?_, rfl⟩
      cases rl
      simp only at h
      subst h
      rfl
    · exact ⟨rfl, rfl⟩
  rw [hclose.1, hclose.2]
  refine ⟨rfl, ?_⟩
  have hc : chooseTarget L { rl with outFh := none } sys t false = Choice.reuse := by
    rw [chooseTarget_reuse_iff]
    refine ⟨?_, rfl, ?_⟩
    · have hk := comparationKeys_no_period L { rl with outFh := none } t hper
      rw [hk]
      simp only [← hFn, ← hRn]
    · exact sizeRotation_of_below L { rl with outFh := none } sys hsize
  simp only [Write, getWriterNolock, hc, FileWrite]

theorem GenerateFnBase_wall (now : Time) (d : Int) (hd : 0 < d) :
    (GenerateFnBase now d).wall = now.wall - now.wall % d := by
  have hnd : ¬ d ≤ 0 := by omega
  unfold GenerateFnBase
  by_cases hl : now.Location = Location.utc
  · simp only [hl, ne_eq, not_true_eq_false, if_false, Time.Truncate, hnd]
    have : now.loc = Location.utc := hl
    simp [Time.abs, this, Location.offset]
  · simp only [ne_eq, hl, not_false_eq_true, if_true, Time.Truncate, hnd, if_false, Date, Time.abs,
      Location.offset, sub_zero]

/-! ## Worked runs -/

/-- C1, at a concrete input: after a first `Write` on March 1 at 10:00, writes
at 11:00 and 23:59:59 of the same day leave the writer state and the set of
existing paths unchanged and return their byte counts. -/
theorem same_bucket_writes_reuse_handle_witness :
    quietWrites stdLib dailyFirst.rl tMar1 dailyFirst.sys
        [(utcTime 2024 3 1 11 0 0, [98]), (utcTime 2024 3 1 23 59 59, [99])] = true ∧
    (WriteSeq stdLib dailyFirst.rl dailyFirst.sys
        [(utcTime 2024 3 1 11 0 0, [98]), (utcTime 2024 3 1 23 59 59, [99])]).1 = dailyFirst.rl ∧
    (WriteSeq stdLib dailyFirst.rl dailyFirst.sys
        [(utcTime 2024 3 1 11 0 0, [98]), (utcTime 2024 3 1 23 59 59, [99])]).2.1.paths
      = dailyFirst.sys.paths :=
  have h := same_bucket_writes_reuse_handle stdLib (newOr "app.%Y%m%d.log" [])
    (emptySys.atTime tMar1) tMar1 false false { fd := 3, path := "app.20240301.log" }
    dailyFirst.rl (by decide) (by rfl) (by rfl) dailyFirst.sys
    [(utcTime 2024 3 1 11 0 0, [98]), (utcTime 2024 3 1 23 59 59, [99])] (by decide)
  ⟨by decide, h.2.2.1, h.2.2.2.2.1⟩

/-- C2, counterexample: with the pattern `app.log` (no time directive) and the
default one-day interval, a `Write` on March 1 and a `Write` on March 2 lie in
different buckets and the crossing is detected, yet the current filename is
`app.log` before and after the second `Write`. With a half-second interval and
the current file `app.20240301.log.1`, a `Write` half a second later lies in
another bucket whose pattern name `app.20240301.log` is another string, yet the
keys are unchanged and the current filename stays. -/
theorem constant_pattern_keeps_filename :
    constFirst.err = none ∧ constSecond.err = none ∧
    GenerateFnBase tMar2 constFirst.rl.rotationTime
      ≠ GenerateFnBase tMar1 constFirst.rl.rotationTime ∧
    comparationKeys stdLib constFirst.rl tMar2
      ≠ (constFirst.rl.curBaseFn, constFirst.rl.curBaseRn) ∧
    constFirst.rl.curFn = "app.log" ∧
    constSecond.rl.curFn = constFirst.rl.curFn ∧
    halfRotated.err = none ∧ halfWrite.err = none ∧
    GenerateFnBase tHalf halfRotated.rl.rotationTime
      ≠ GenerateFnBase tMar1 halfRotated.rl.rotationTime ∧
    comparationKeys stdLib halfRotated.rl tHalf
      = (halfRotated.rl.curBaseFn, halfRotated.rl.curBaseRn) ∧
    GenerateFn stdLib halfRotated.rl.filenamePattern tHalf halfRotated.rl.rotationTime
      = "app.20240301.log" ∧
    halfRotated.rl.curFn = "app.20240301.log.1" ∧
    halfWrite.rl.curFn = halfRotated.rl.curFn := by
  decide

/-- C2 (amended), at a concrete input: with the pattern `app.%Y%m%d.log` the
`Write` on March 2 makes `app.20240302.log` current, which differs from the
previous current filename. -/
theorem boundary_crossing_filename_witness :
    comparationKeys stdLib dailyFirst.rl tMar2
      ≠ (dailyFirst.rl.curBaseFn, dailyFirst.rl.curBaseRn) ∧
    (Write stdLib dailyFirst.rl dailyFirst.sys tMar2 [98]).err = none ∧
    (Write stdLib dailyFirst.rl dailyFirst.sys tMar2 [98]).rl.curFn
      = GenerateFn stdLib dailyFirst.rl.filenamePattern tMar2 dailyFirst.rl.rotationTime ∧
    (Write stdLib dailyFirst.rl dailyFirst.sys tMar2 [98]).rl.curFn ≠ dailyFirst.rl.curFn :=
  have h := (boundary_crossing_filename stdLib dailyFirst.rl dailyFirst.sys tMar2 [98]
    (by decide) (by decide)).1 (by decide) (by decide)
  ⟨by decide, by decide, h.1, h.2.2 (by decide)⟩

/-- Without a fixed period, two successive `Rotate()` calls on a fresh daily
writer in an empty directory give `app.20240301.log` and then
`app.20240301.log.1`. -/
theorem forced_rotation_takes_next_generation_witness :
    rotatedOnce.rl.curFn = "app.20240301.log" ∧
    (Rotate stdLib rotatedOnce.rl rotatedOnce.sys tMar1).rl.curFn = "app.20240301.log.1" :=
  forced_rotation_takes_next_generation.2 stdLib "app.%Y%m%d.log" [] (newOr "app.%Y%m%d.log" [])
    (emptySys.atTime tMar1) tMar1 (by rfl) (by decide) (by decide) (by decide) (by decide)
    (by decide) (by decide)

/-- C3, the failing run: on a fresh hourly writer (`WithRotationPeriod`) in an
empty directory, two successive `Rotate()` calls at 10:00:00 UTC both succeed;
the second finds comparison keys that differ from the stored ones, resets the
generation to 0 and reopens `app.2024030110.log`: the current filename is the
same after both calls and `app.2024030110.log.1` is never created. The same
happens when the interval is left at one day. Without a fixed period the two
calls give `app.20240301.log` and `app.20240301.log.1`. -/
theorem rotate_twice_with_period_repeats_base :
    (emptySys.atTime tMar1).nodes = [] ∧
    hourlyRotatedOnce.err = none ∧
    hourlyRotatedOnce.rl.curFn = "app.2024030110.log" ∧
    hourlyRotatedOnce.rl.generation = 0 ∧
    (hourlyRotatedOnce.rl.curBaseFn, hourlyRotatedOnce.rl.curBaseRn)
      = ("app.2024030110.log", "20240301100000") ∧
    comparationKeys stdLib hourlyRotatedOnce.rl tMar1
      = ("app.2024030109.log", "20240301095959") ∧
    chooseTarget stdLib hourlyRotatedOnce.rl hourlyRotatedOnce.sys tMar1 true
      = Choice.target hourlyRotatedOnce.sys "app.2024030110.log" "app.2024030110.log" 0 ∧
    hourlyRotatedTwice.err = none ∧
    hourlyRotatedTwice.rl.curFn = "app.2024030110.log" ∧
    hourlyRotatedTwice.rl.generation = 0 ∧
    hourlyRotatedTwice.sys.paths = ["app.2024030110.log"] ∧
    hourlyDayRotatedOnce.err = none ∧
    hourlyDayRotatedOnce.rl.curFn = "app.2024030100.log" ∧
    hourlyDayRotatedTwice.err = none ∧
    hourlyDayRotatedTwice.rl.curFn = "app.2024030100.log" ∧
    hourlyDayRotatedTwice.sys.paths = ["app.2024030100.log"] ∧
    rotatedOnce.rl.curFn = "app.20240301.log" ∧
    (Rotate stdLib rotatedOnce.rl rotatedOnce.sys tMar1).rl.curFn = "app.20240301.log.1" := by
  decide

/-- C4, at a concrete input: a negative max age alone leaves the 7-day default. -/
theorem New_retention_mode_witness :
    stdLib.validPattern "app.%Y%m%d.log" = true ∧
    ∃ rl, New stdLib "app.%Y%m%d.log" [Opt.maxAge (-5)] = .ok rl ∧ rl.maxAge = 7 * 24 * nsHour :=
  ⟨by decide,
    match (New_retention_mode stdLib "app.%Y%m%d.log" [Opt.maxAge (-5)] (by decide) (by decide)).2.1
        (by decide) with
    | ⟨rl, h, _, h7, _⟩ => ⟨rl, h, h7 (by decide) (by decide)⟩⟩

/-- C5, counterexample: with a day-first pattern the glob lists the file of
February 1 before the file of January 31; count mode with max count 1 selects
the February file although the retained January file is older. -/
theorem count_mode_removes_newer_file :
    stdLib.glob dayFirstWriter.globPattern dayFirstSys.paths
      = .ok ["01-02-2024.log", "31-01-2024.log"] ∧
    selectUnlink stdLib dayFirstWriter dayFirstSys tMar1 ["01-02-2024.log", "31-01-2024.log"]
      = ["01-02-2024.log"] ∧
    countCandidate stdLib dayFirstSys "31-01-2024.log" = true ∧
    modTimeOf stdLib dayFirstSys "31-01-2024.log" < modTimeOf stdLib dayFirstSys "01-02-2024.log" :=
  ⟨by rfl, by decide, by decide, by decide⟩

/-- C5 (amended), at a concrete input: one path is selected, the first
candidate in glob order. -/
theorem count_mode_selects_leading_witness :
    0 < dayFirstWriter.rotationCount ∧ dayFirstWriter.maxAge ≤ 0 ∧
    selectUnlink stdLib dayFirstWriter dayFirstSys tMar1 ["01-02-2024.log", "31-01-2024.log"]
      = ["01-02-2024.log"] :=
  ⟨by decide, by decide,
    ((count_mode_selects_leading stdLib dayFirstWriter dayFirstSys tMar1
      ["01-02-2024.log", "31-01-2024.log"] (by decide) (by decide)).2.1 (by decide)).1⟩

/-- C6, at a concrete input: with max age one day, at 10:00 on March 1 the file
of February 28 is selected, the file modified at 09:00 on March 1 is not. -/
theorem age_mode_selects_exactly_witness :
    0 < ageWriter.maxAge ∧ ageWriter.rotationCount = 0 ∧
    "app.20240228.log" ∈ selectUnlink stdLib ageWriter ageSys tMar1
      ["app.20240228.log", "app.20240301.log", "app.20240101.log_lock"] ∧
    "app.20240301.log" ∉ selectUnlink stdLib ageWriter ageSys tMar1
      ["app.20240228.log", "app.20240301.log", "app.20240101.log_lock"] ∧
    "app.20240101.log_lock" ∉ selectUnlink stdLib ageWriter ageSys tMar1
      ["app.20240228.log", "app.20240301.log", "app.20240101.log_lock"] :=
  have h := age_mode_selects_exactly stdLib ageWriter ageSys tMar1
    ["app.20240228.log", "app.20240301.log", "app.20240101.log_lock"] (by decide) (by decide)
  ⟨by decide, by decide,
    (h.1 "app.20240228.log").mpr ⟨by decide, by decide, by decide,
      ⟨{ size := 1, modTime := (utcTime 2024 2 28 12 0 0).abs, isSymlink := false },
        by decide, by decide⟩⟩,
    h.2.1 "app.20240301.log"
      { size := 1, modTime := (utcTime 2024 3 1 9 0 0).abs, isSymlink := false }
      (by decide) (by decide),
    h.2.2 "app.20240101.log_lock" (Or.inl (by decide))⟩

/-- C7, counterexample: `Rotate()` on a fresh writer while the lock sentinel of
the target exists. The new file is created, yet the call fails and the new
file does not become current. -/
theorem rotate_fails_when_lock_exists :
    chooseTarget stdLib (newOr "app.%Y%m%d.log" []) lockedSys tMar1 true
      = Choice.target lockedSys "" "app.20240301.log" 0 ∧
    (Rotate stdLib (newOr "app.%Y%m%d.log" []) lockedSys tMar1).sys.find "app.20240301.log"
      = some (Node.file [] tMar1.abs) ∧
    (Rotate stdLib (newOr "app.%Y%m%d.log" []) lockedSys tMar1).err
      = some "failed to rotate: open app.20240301.log_lock: file exists" ∧
    (Rotate stdLib (newOr "app.%Y%m%d.log" []) lockedSys tMar1).rl.curFn = "" ∧
    (Rotate stdLib (newOr "app.%Y%m%d.log" []) lockedSys tMar1).rl.outFh = none := by
  decide

/-- C7 (amended), at a concrete input: `Write` in the same situation succeeds
and adopts the new file. -/
theorem write_adopts_despite_rotate_failure_witness :
    (Write stdLib (newOr "app.%Y%m%d.log" []) lockedSys tMar1 [97]).err = none ∧
    (Write stdLib (newOr "app.%Y%m%d.log" []) lockedSys tMar1 [97]).rl.curFn
      = "app.20240301.log" :=
  have h := (write_adopts_despite_rotate_failure stdLib (newOr "app.%Y%m%d.log" []) lockedSys
    tMar1 [97] lockedSys "" "app.20240301.log" 0 { fd := 3, path := "app.20240301.log" }
    { (lockedSys.put "app.20240301.log" (Node.file [] lockedSys.clock)) with nextFd := 4 }
    "open app.20240301.log_lock: file exists" (by decide) (by rfl) (by rfl)).1
  ⟨h.1, h.2.2.2.1⟩

/-- C8, the failing run: after a successful `Write` and `Close()`, a `Write` at
the same instant returns 0 bytes with `invalid argument`, leaves `outFh` nil
and the file untouched; `Rotate()` at that instant, or a `Write` on the next
day, does reopen a file. -/
theorem write_after_close_fails :
    dailyFirst.err = none ∧ dailyClosed.err = none ∧
    (Write stdLib dailyClosed.rl dailyClosed.sys tMar1 [98]).n = 0 ∧
    (Write stdLib dailyClosed.rl dailyClosed.sys tMar1 [98]).err = some "invalid argument" ∧
    (Write stdLib dailyClosed.rl dailyClosed.sys tMar1 [98]).rl.outFh = none ∧
    (Write stdLib dailyClosed.rl dailyClosed.sys tMar1 [98]).sys.find "app.20240301.log"
      = some (Node.file [97] tMar1.abs) ∧
    (Rotate stdLib dailyClosed.rl dailyClosed.sys tMar1).rl.outFh
      = some { fd := 5, path := "app.20240301.log.1" } ∧
    (Write stdLib dailyClosed.rl (dailyClosed.sys.atTime tMar2) tMar2 [98]).err = none ∧
    (Write stdLib dailyClosed.rl (dailyClosed.sys.atTime tMar2) tMar2 [98]).rl.outFh
      = some { fd := 5, path := "app.20240302.log" } := by
  decide

/-- C9, the failing run: with the hourly period and a UTC clock at 10:00:00,
the keys stored by the first `Write` are those of 10:00:00 while the comparison
keys computed at the same instant are those of 09:59:59; the second `Write` at
that instant therefore rotates again: a new handle, a second event, and with
compression on the bytes of the first write are moved to the `.gz` file. The
keys disagree as well when the interval is left at one day, and for the daily
period. -/
theorem hourly_period_rotates_on_every_write :
    hourlyFirst.err = none ∧
    (hourlyFirst.rl.curBaseFn, hourlyFirst.rl.curBaseRn)
      = ("app.2024030110.log", "20240301100000") ∧
    comparationKeys stdLib hourlyFirst.rl tMar1 = ("app.2024030109.log", "20240301095959") ∧
    chooseTarget stdLib hourlyFirst.rl hourlyFirst.sys tMar1 false
      = Choice.target hourlyFirst.sys "app.2024030110.log" "app.2024030110.log" 0 ∧
    hourlyFirst.rl.outFh = some { fd := 3, path := "app.2024030110.log" } ∧
    hourlySecond.err = none ∧
    hourlySecond.rl.outFh = some { fd := 5, path := "app.2024030110.log" } ∧
    hourlySecond.sys.events
      = [{ prev := "", current := "app.2024030110.log" },
         { prev := "app.2024030110.log", current := "app.2024030110.log" }] ∧
    hourlyGzSecond.sys.find "app.2024030110.log.gz" = some (Node.file [97] tMar1.abs) ∧
    hourlyGzSecond.sys.find "app.2024030110.log" = some (Node.file [98] tMar1.abs) ∧
    (hourlyDayFirst.rl.curBaseFn, hourlyDayFirst.rl.curBaseRn)
      = ("app.2024030100.log", "20240301000000") ∧
    comparationKeys stdLib hourlyDayFirst.rl tMar1 = ("app.2024030109.log", "20240301095959") ∧
    (dailyPeriodFirst.rl.curBaseFn, dailyPeriodFirst.rl.curBaseRn)
      = ("app.20240301.log", "20240301000000") ∧
    comparationKeys stdLib dailyPeriodFirst.rl tMar1 = ("app.20240229.log", "20240229235959") := by
  decide

/-- C10, the failing run: for 2018-06-01 03:18:00 +09:00 and a one-day
interval, the time handed to the formatter shows 2018-06-01 00:00:00 but is in
UTC, not in the zone of `now`; a pattern with `%z` prints `+0000` where the
clock reads `+0900`. -/
theorem generateFn_drops_zone :
    tTokyo.Location = Location.zone "JST" (9 * nsHour) ∧
    GenerateFnBase tTokyo nsDay = Date (utcTime 2018 6 1 0 0 0).wall Location.utc ∧
    (GenerateFnBase tTokyo nsDay).Location ≠ tTokyo.Location ∧
    stdLib.format "app.%Y%m%d%z.log" tTokyo = "app.20180601+0900.log" ∧
    GenerateFn stdLib "app.%Y%m%d%z.log" tTokyo nsDay = "app.20180601+0000.log" := by
  decide

end Rotatelogs
